import Mathlib

/-!
Verification of the news_scraper extraction pipeline.

This file gives a shallow embedding, in Lean, of the core decision logic of
the news_scraper repository: the text sanitizer and markup-to-plaintext
reducer (news_scraper/html_content.py), the retrying HTTP fetcher
(news_scraper/request.py), the XML-feed normalizer
(news_scraper/nosdiario/nosdiario.py), the HTML-scrape normalizer
(news_scraper/prazapublica/praza.py) and the JSON document writer shared by
both normalizers.

Conventions of the embedding:
 - Python strings are `List Char` (abbreviated `Str`); Python byte strings
   are `List Nat`.
 - External libraries (requests, newspaper, lxml parsing, hashlib, the file
   system) are not part of the repository; their behaviour is passed in as
   explicit oracle parameters, so every repository function stays a pure,
   executable Lean function of its inputs and of those oracles.
 - Python exceptions that the repository code can raise and does not catch
   are modelled with `Except`; exceptions that the code catches are resolved
   at the catch site, exactly as the source does.
-/

namespace NewsScraper

/-! ## Python string primitives -/

abbrev Str := List Char

/-- Python `str.isspace` / default `str.strip` whitespace set (the Unicode
whitespace characters, written out by code point). -/
def pyIsSpace (c : Char) : Bool :=
  let n := c.toNat
  (9 ≤ n && n ≤ 13) || (28 ≤ n && n ≤ 31) || n = 32 || n = 0x85 || n = 0xA0 ||
  n = 0x1680 || (0x2000 ≤ n && n ≤ 0x200A) || n = 0x2028 || n = 0x2029 ||
  n = 0x202F || n = 0x205F || n = 0x3000

/-- Python `s.strip()` with no arguments: drop leading and trailing
whitespace. -/
def pyStrip (s : Str) : Str :=
  ((s.dropWhile pyIsSpace).reverse.dropWhile pyIsSpace).reverse

/-- Python truthiness of a string: non-empty. -/
def pyTruthy (s : Str) : Bool := !s.isEmpty

/-- Python `a or b` on two optional strings, as used with `findtext`/`get`
results: the first operand wins only when it is a non-empty string (both
`None` and the empty string are falsy). -/
def pyOrOpt (a b : Option Str) : Option Str :=
  match a with
  | some s => if pyTruthy s then some s else b
  | none => b

/-- Python `value or default` collapsing a falsy optional string to a
default. -/
def pyOrElse (a : Option Str) (dflt : Str) : Str :=
  match a with
  | some s => if pyTruthy s then s else dflt
  | none => dflt

/-! ## Text sanitizer: `clean_chars` (html_content.py, lines 10-21)

The regex `[\x00-\x08\x0B\x0C\x0E-\x1F\x7F]` matches the C0 control
characters other than tab, newline and carriage return, plus DEL; `re.sub`
replaces every match with a single space, and the result is `.strip()`ed. -/

/-- The character class of the `re.sub` pattern in `clean_chars`. -/
def ctrlBanned (c : Char) : Bool :=
  let n := c.toNat
  n ≤ 8 || n = 0x0B || n = 0x0C || (0x0E ≤ n && n ≤ 0x1F) || n = 0x7F

/-- The Unicode replacement character U+FFFD. -/
def replChar : Char := Char.ofNat 0xFFFD

/-- Is `b` a UTF-8 continuation byte (`0x80..0xBF`)? -/
def utf8Cont (b : Nat) : Bool := 0x80 ≤ b && b ≤ 0xBF

/-- Decode one UTF-8 unit: the lead byte `b` plus as many continuation
bytes from `bs` as a valid sequence needs. Returns the decoded character
(U+FFFD when `b` begins a maximal invalid subsequence) and the bytes not
consumed. -/
def utf8Step (b : Nat) (bs : List Nat) : Char × List Nat :=
  if b ≤ 0x7F then (Char.ofNat b, bs)
  else if 0xC2 ≤ b && b ≤ 0xDF then
    match bs with
    | b1 :: bs1 =>
      if utf8Cont b1 then (Char.ofNat ((b - 0xC0) * 0x40 + (b1 - 0x80)), bs1)
      else (replChar, bs)
    | [] => (replChar, [])
  else if 0xE0 ≤ b && b ≤ 0xEF then
    -- the admissible first continuation range depends on the lead byte
    let lo1 := if b = 0xE0 then 0xA0 else 0x80
    let hi1 := if b = 0xED then 0x9F else 0xBF
    match bs with
    | b1 :: bs1 =>
      if lo1 ≤ b1 && b1 ≤ hi1 then
        match bs1 with
        | b2 :: bs2 =>
          if utf8Cont b2 then
            (Char.ofNat ((b - 0xE0) * 0x1000 + (b1 - 0x80) * 0x40 + (b2 - 0x80)), bs2)
          else (replChar, bs1)
        | [] => (replChar, [])
      else (replChar, bs)
    | [] => (replChar, [])
  else if 0xF0 ≤ b && b ≤ 0xF4 then
    let lo1 := if b = 0xF0 then 0x90 else 0x80
    let hi1 := if b = 0xF4 then 0x8F else 0xBF
    match bs with
    | b1 :: bs1 =>
      if lo1 ≤ b1 && b1 ≤ hi1 then
        match bs1 with
        | b2 :: bs2 =>
          if utf8Cont b2 then
            match bs2 with
            | b3 :: bs3 =>
              if utf8Cont b3 then
                (Char.ofNat ((b - 0xF0) * 0x40000 + (b1 - 0x80) * 0x1000 +
                  (b2 - 0x80) * 0x40 + (b3 - 0x80)), bs3)
              else (replChar, bs2)
            | [] => (replChar, [])
          else (replChar, bs1)
        | [] => (replChar, [])
      else (replChar, bs)
    | [] => (replChar, [])
  else (replChar, bs)

/-- Python `bytes.decode("utf-8", errors="replace")`: standard UTF-8
decoding where each maximal invalid subsequence is replaced by one U+FFFD
(CPython follows the Unicode substitution-of-maximal-subparts practice). -/
def utf8DecodeReplace : List Nat → Str
  | [] => []
  | b :: bs => (utf8Step b bs).1 :: utf8DecodeReplace (utf8Step b bs).2
termination_by l => l.length
decreasing_by
  have hle : (utf8Step b bs).2.length ≤ bs.length := by
    unfold utf8Step
    repeat' split
    all_goals simp_all
    all_goals repeat' split
    all_goals simp_all
    all_goals omega
  exact Nat.lt_succ_of_le hle

/-- The argument of `clean_chars`: either an already-decoded string or a
byte string (`bytes`/`bytearray`). -/
inductive PyContent where
  | strc (s : Str)
  | bytesc (bs : List Nat)
deriving DecidableEq

/-- `clean_chars(content)` from html_content.py: decode byte input as UTF-8
with replacement, substitute a space for every banned control character,
then strip. -/
def clean_chars (content : PyContent) : Str :=
  let text : Str :=
    match content with
    | .strc s => s
    | .bytesc bs => utf8DecodeReplace bs
  pyStrip (text.map (fun c => if ctrlBanned c then ' ' else c))

/-- Modelled from the spec wording of claim C5, for refinement comparison
only: the spec says the control characters are "removed" from the text
(rather than replaced by a space as the source does), then the result is
trimmed. -/
def clean_chars_specRemoval (content : PyContent) : Str :=
  let text : Str :=
    match content with
    | .strc s => s
    | .bytesc bs => utf8DecodeReplace bs
  pyStrip (text.filter (fun c => !ctrlBanned c))

/-! ## Markup-to-plaintext reducer: `clean_html_body` (html_content.py,
lines 24-50)

The two extraction strategies call into the external `newspaper` library:
`newspaper.article(url=..., input_html=cleaned).to_json(...).get('text','')`
and `newspaper.fulltext(cleaned)`. Each is passed in as an oracle
`Str → Except Unit Str` whose `.error` value models the library raising an
arbitrary exception (the source catches bare `Exception`). -/

/-- An external extraction strategy: given the cleaned markup, either
returns text or raises. -/
abbrev ExtractOracle := Str → Except Unit Str

/-- The two `RuntimeError`s `clean_html_body` can raise. -/
inductive CleanErr where
  | emptyContent
  | extractionFailed
deriving DecidableEq

/-- `clean_html_body(html_content)`: sanitize; fail on empty; try the
structured-article strategy (exceptions caught, treated as empty); if
empty, try the fulltext strategy (result stripped, exceptions caught,
treated as empty); fail if still empty. -/
def clean_html_body (artO fulltextO : ExtractOracle) (html_content : PyContent) :
    Except CleanErr Str :=
  let cleaned := clean_chars html_content
  if cleaned.isEmpty then .error .emptyContent
  else
    let htmlCleaned : Str := match artO cleaned with | .ok t => t | .error _ => []
    let htmlCleaned2 : Str :=
      if htmlCleaned.isEmpty then
        match fulltextO cleaned with | .ok t => pyStrip t | .error _ => []
      else htmlCleaned
    if htmlCleaned2.isEmpty then .error .extractionFailed else .ok htmlCleaned2

/-- Does a strategy outcome count as an empty result (true both when the
strategy raised and when it returned empty text)? -/
def effEmpty : Except Unit Str → Bool
  | .ok t => t.isEmpty
  | .error _ => true

/-- Variant of `effEmpty` for the fulltext strategy, whose result is
stripped before the emptiness test. -/
def effEmptyStrip : Except Unit Str → Bool
  | .ok t => (pyStrip t).isEmpty
  | .error _ => true

/-- Replace a strategy's exceptions by an empty-text return. -/
def purifyOracle (g : ExtractOracle) : ExtractOracle :=
  fun s => .ok (match g s with | .ok t => t | .error _ => [])

/-- Strategy oracle raising on every input (for concrete instantiation). -/
def oracleRaise : ExtractOracle := fun _ => .error ()

/-- Strategy oracle returning fixed text on every input. -/
def oracleText : ExtractOracle := fun _ => .ok ['t']

/-! ## HTTP fetcher: `Request` (request.py)

`requests.get` is external; the network is modelled as an oracle mapping
the attempt number (1-based, as in the source loop
`for attempt in range(1, self.max_retries + 1)`) to what that attempt
observes: a response with a status code and body, or a transport
exception. `time.sleep` calls are counted in the result. -/

/-- The transport exceptions the source catches from `requests.get`. -/
inductive ExcKind where
  | timeoutK
  | connK
  | otherK
deriving DecidableEq

/-- What one `requests.get` call yields. -/
inductive Attempt where
  | resp (status : Nat) (body : Str)
  | exc (k : ExcKind)
deriving DecidableEq

/-- The `RequestError` messages raised by request.py, by shape. -/
inductive ReqErrMsg where
  | timeoutOccurred
  | connectionError
  | fetchError
  | unknownError
  | httpError (status : Nat)
deriving DecidableEq

/-- Result of `_request_with_retries`: a returned response or a raised
`RequestError`, each together with the number of `time.sleep` calls made. -/
inductive ReqResult where
  | response (status : Nat) (body : Str) (sleeps : Nat)
  | failure (msg : ReqErrMsg) (sleeps : Nat)
deriving DecidableEq

/-- `self._retry_status_codes = {500, 502, 503, 504, 429}`. -/
def retryStatusCodes : List Nat := [500, 502, 503, 504, 429]

/-- The classification of `last_exc` after the retry loop ends without
returning a response. -/
def classifyLastExc : Option ExcKind → ReqErrMsg
  | some .timeoutK => .timeoutOccurred
  | some .connK => .connectionError
  | some .otherK => .fetchError
  | none => .unknownError

/-- The body of the `for attempt in range(1, max_retries + 1)` loop of
`_request_with_retries`, with `fuel` counting the iterations left: a
retryable status with attempts remaining sleeps and retries; any other
status returns the response as-is; a transport exception records itself in
`last_exc` and sleeps and retries with attempts remaining, else breaks to
the classification. -/
def requestLoop (oracle : Nat → Attempt) (maxRetries : Nat) :
    Nat → Nat → Option ExcKind → Nat → ReqResult
  | 0, _, lastExc, sleeps => .failure (classifyLastExc lastExc) sleeps
  | fuel + 1, attempt, lastExc, sleeps =>
    match oracle attempt with
    | .resp status body =>
      if status ∈ retryStatusCodes ∧ attempt < maxRetries then
        requestLoop oracle maxRetries fuel (attempt + 1) lastExc (sleeps + 1)
      else .response status body sleeps
    | .exc k =>
      if attempt < maxRetries then
        requestLoop oracle maxRetries fuel (attempt + 1) (some k) (sleeps + 1)
      else .failure (classifyLastExc (some k)) sleeps

/-- `Request._request_with_retries` (request.py, lines 42-111). -/
def requestWithRetries (oracle : Nat → Attempt) (maxRetries : Nat) : ReqResult :=
  requestLoop oracle maxRetries maxRetries 1 none 0

/-- Result of `Request.fetch`: the body text, or a raised `RequestError`. -/
inductive FetchResult where
  | ok (body : Str)
  | error (msg : ReqErrMsg)
deriving DecidableEq

/-- `Request.fetch` (request.py, lines 130-153): run the retry loop, then
`raise_for_status` converts a 4xx/5xx final response into a
`RequestError` embedding the status code. -/
def fetch (oracle : Nat → Attempt) (maxRetries : Nat) : FetchResult :=
  match requestWithRetries oracle maxRetries with
  | .failure msg _ => .error msg
  | .response status body _ =>
    if 400 ≤ status ∧ status ≤ 599 then .error (.httpError status) else .ok body

/-- `Request.fetch_response` (request.py, lines 113-128): the retry loop
result surfaced unchanged. -/
def fetch_response (oracle : Nat → Attempt) (maxRetries : Nat) : ReqResult :=
  requestWithRetries oracle maxRetries

/-- The constructor default `max_retries=3`. -/
def defaultMaxRetries : Nat := 3

/-- Oracle: 503 on the first two attempts, 200 with body "B" afterwards. -/
def oracleTwo503 : Nat → Attempt :=
  fun i => if 3 ≤ i then .resp 200 ['B'] else .resp 503 []

/-- Oracle: 503 on every attempt. -/
def oracleAll503 : Nat → Attempt := fun _ => .resp 503 []

/-! ## DOM trees

Both lxml and ElementTree documents are modelled with one tree type:
elements carry a tag, an attribute list and an ordered child list; text is
interleaved as child nodes (this represents the same information as
lxml's `text`/`tail` fields). -/

inductive Node where
  | elem (tag : Str) (attrs : List (Str × Str)) (children : List Node)
  | textn (s : Str)

/-- Attribute lookup, `element.get(name)` / `element.attrib.get(name)`. -/
def getAttr (n : Node) (name : Str) : Option Str :=
  match n with
  | .elem _ attrs _ => (attrs.find? (fun p => p.1 == name)).map Prod.snd
  | .textn _ => none

/-- The element's tag, if it is an element. -/
def tagOf : Node → Option Str
  | .elem t _ _ => some t
  | .textn _ => none

/-- Substring containment, for the XPath `contains(...)` predicate. -/
def strHasInfix (needle : Str) : Str → Bool
  | [] => needle.isEmpty
  | c :: t => needle.isPrefixOf (c :: t) || strHasInfix needle t

/-- Does the node's `class` attribute contain `sub` as a substring
(`contains(@class, sub)`; false when the attribute is absent)? -/
def classContains (sub : Str) (n : Node) : Bool :=
  match getAttr n (("class").data) with
  | some v => strHasInfix sub v
  | none => false

/-- Is the node an element with exactly this `class` attribute value
(lxml `link.get("class", "") == cls`)? -/
def classIs (cls : Str) (n : Node) : Bool :=
  match n with
  | .elem _ _ _ =>
    (match getAttr n (("class").data) with
     | some v => v == cls
     | none => [] == cls)
  | .textn _ => false

mutual

/-- All nodes of the subtree rooted at `n`, in document (pre-)order,
including `n` itself. -/
def descOrSelf : Node → List Node
  | .textn s => [.textn s]
  | .elem t a cs => .elem t a cs :: descOrSelfList cs

def descOrSelfList : List Node → List Node
  | [] => []
  | n :: ns => descOrSelf n ++ descOrSelfList ns

end

mutual

/-- All text content of the subtree, concatenated in document order
(lxml `itertext()` / `text_content()`). -/
def textContent : Node → Str
  | .textn s => s
  | .elem _ _ cs => textContentList cs

def textContentList : List Node → Str
  | [] => []
  | n :: ns => textContent n ++ textContentList ns

end

/-- All text nodes of the subtree in document order
(the XPath `.//text()`). -/
def textNodes (n : Node) : List Str :=
  (descOrSelf n).filterMap (fun m => match m with | .textn s => some s | _ => none)

mutual

/-- Elements with tag `inner` that lie strictly below some element with
tag-and-predicate `outer`, itself strictly below the start node: the XPath
`.//outer//inner` with proper node-set semantics (each matching node once,
in document order). The flag records whether an `outer` ancestor has been
seen. -/
def nestedElems (outer : Node → Bool) (inner : Node → Bool) :
    Bool → Node → List Node
  | _, .textn _ => []
  | inside, .elem t a cs =>
    (if inside && inner (.elem t a cs) then [Node.elem t a cs] else []) ++
      nestedElemsList outer inner (inside || outer (.elem t a cs)) cs

def nestedElemsList (outer : Node → Bool) (inner : Node → Bool) :
    Bool → List Node → List Node
  | _, [] => []
  | inside, n :: ns =>
    nestedElems outer inner inside n ++ nestedElemsList outer inner inside ns

end

/-- Is the node an element with the given tag? -/
def isTag (t : Str) (n : Node) : Bool :=
  match n with
  | .elem tg _ _ => tg == t
  | .textn _ => false

/-- The XPath `.//ul//a` from `n`: anchors strictly inside a `ul` strictly
inside `n`. -/
def ulAnchors (n : Node) : List Node :=
  match n with
  | .elem _ _ cs => nestedElemsList (isTag (("ul").data)) (isTag (("a").data)) false cs
  | .textn _ => []

/-- Strict descendants of `n` in document order. -/
def strictDesc (n : Node) : List Node :=
  match n with
  | .elem _ _ cs => descOrSelfList cs
  | .textn _ => []

/-! ## String helpers shared by the normalizers -/

/-- Bounded-fuel core of `strReplace2`; the fuel is the input length, so
it never runs out. This structural formulation lets concrete instances
reduce in the kernel. -/
def strReplaceGo (pat rep : Str) : Nat → Str → Str
  | 0, s => s
  | _, [] => []
  | fuel + 1, c :: t =>
    if pat ≠ [] && pat.isPrefixOf (c :: t) then
      rep ++ strReplaceGo pat rep fuel ((c :: t).drop pat.length)
    else c :: strReplaceGo pat rep fuel t

/-- Python `s.replace(pat, rep)`: replace every (non-overlapping,
leftmost-first) occurrence, in kernel-reducible form. -/
def strReplace2 (pat rep s : Str) : Str := strReplaceGo pat rep s.length s

/-- Python `url.split("/")[-1]`: the final slash-separated segment. -/
def lastSegment (url : Str) : Str := (url.splitOn '/').getLastD []

/-- `NosDiario._get_newsid` (nosdiario.py, lines 273-279): final path
segment, `.html` removed, first 14 characters (the date prefix) dropped. -/
def nos_get_newsid (url : Str) : Str :=
  (strReplace2 ((".html").data) [] (lastSegment url)).drop 14

/-! ## `NosDiario._get_related` (nosdiario.py, lines 242-271)

The source wraps the body-html string in `<html><body>...</body></html>`,
parses it with lxml, collects every `div` whose class contains
`related-content` (`//div[contains(@class, 'related-content')]`), extracts
from each such div the href-bearing anchors under its `ul` descendants,
removes each such div from its parent, and serializes the remainder. An
lxml element removed from its parent keeps its own subtree, so a matched
div nested inside another matched div still contributes its anchors (they
are walked twice: once through the outer div and once on their own); the
functional model below collects anchors per matched div of the original
tree and prunes all matched divs in one pass, which yields the same list
and the same remaining tree. The root itself is never removed
(`div.getparent() is None`). -/

/-- A related-article entry `{link, title, newsid}`. -/
structure Related where
  link : Str
  title : Str
  newsid : Str
deriving DecidableEq

/-- Configuration consumed by `NosDiario` (from the INI file). -/
structure NosConfig where
  base_url : Str
  corpus : Str
  source : Str

/-- A `div` whose `class` contains `related-content`. -/
def isRelatedDiv (n : Node) : Bool :=
  isTag (("div").data) n && classContains (("related-content").data) n

/-- The matched divs of the wrapped document, in document order. -/
def relatedDivs (doc : Node) : List Node := (descOrSelf doc).filter isRelatedDiv

/-- The entries one matched div contributes: its `.//ul//a` anchors that
carry a truthy `href`. -/
def relatedOfDiv (cfg : NosConfig) (d : Node) : List Related :=
  (ulAnchors d).filterMap (fun a =>
    match getAttr a (("href").data) with
    | some href =>
      if pyTruthy href then
        some ⟨cfg.base_url ++ href, pyStrip (textContent a), nos_get_newsid href⟩
      else none
    | none => none)

mutual

/-- Drop every matched div (at any depth); the root is kept. -/
def pruneRelated : Node → Node
  | .textn s => .textn s
  | .elem t a cs => .elem t a (pruneRelatedList cs)

def pruneRelatedList : List Node → List Node
  | [] => []
  | n :: ns =>
    (if isRelatedDiv n then [] else [pruneRelated n]) ++ pruneRelatedList ns

end

/-- `NosDiario._get_related`, at the level of the parsed wrapped document:
the extracted entries and the document with the matched divs removed. -/
def getRelatedDoc (cfg : NosConfig) (doc : Node) : List Related × Node :=
  ((relatedDivs doc).flatMap (relatedOfDiv cfg), pruneRelated doc)

/-- Does this anchor carry a truthy (present and non-empty) `href`? -/
def anchorHrefTruthy (a : Node) : Bool :=
  match getAttr a (("href").data) with
  | some h => pyTruthy h
  | none => false

/-- An empty configuration, for concrete instantiations. -/
def cfgEmpty : NosConfig := ⟨[], [], []⟩

/-- A wrapped body whose related-content block is a `span`, not a `div`. -/
def c6SpanDoc : Node :=
  .elem (("html").data) []
    [.elem (("body").data) []
      [.elem (("span").data) [((("class").data), (("related-content").data))]
        [.textn (("sibling").data)]]]

/-- A wrapped body with a matched `div` whose single anchor sits directly
in the div, outside any `ul`. -/
def c6DivDoc : Node :=
  .elem (("html").data) []
    [.elem (("body").data) []
      [.elem (("div").data) [((("class").data), (("related-content").data))]
        [.elem (("a").data) [((("href").data), (("/x").data))]
          [.textn (("t").data)]]]]

/-- A wrapped body with a matched div holding a `ul` list of two anchors,
one of which lacks an `href`. -/
def c6WitnessDoc : Node :=
  .elem (("html").data) []
    [.elem (("body").data) []
      [.elem (("div").data) [((("class").data), (("related-content news").data))]
        [.elem (("ul").data) []
          [.elem (("li").data) []
            [.elem (("a").data)
              [((("href").data), (("/n/20240101120000abc.html").data))]
              [.textn (("other article").data)]],
           .elem (("li").data) [] [.elem (("a").data) [] [.textn (("x").data)]]]]]]

/-! ## JSON documents and `json.dumps(..., ensure_ascii=False, indent=4)`

The canonical documents built by both normalizers hold only strings,
`None`, lists and string-keyed dicts, so that fragment of JSON suffices. -/

inductive JVal where
  | jnull
  | jstr (s : Str)
  | jarr (items : List JVal)
  | jobj (fields : List (Str × JVal))

/-- A lowercase hexadecimal digit character. -/
def hexDigitChar (n : Nat) : Char :=
  if n < 10 then Char.ofNat (48 + n) else Char.ofNat (87 + n)

/-- One JSON-escaped character, as `json.dumps` emits it with
`ensure_ascii=False`: only the quote, the backslash and the C0 controls
are escaped; everything else (non-ASCII included) passes through. -/
def escChar (c : Char) : Str :=
  if c = '"' then ['\\', '"']
  else if c = '\\' then ['\\', '\\']
  else if c = '\n' then ['\\', 'n']
  else if c = '\t' then ['\\', 't']
  else if c = '\r' then ['\\', 'r']
  else if c.toNat = 8 then ['\\', 'b']
  else if c.toNat = 12 then ['\\', 'f']
  else if c.toNat < 32 then
    ['\\', 'u', '0', '0', hexDigitChar (c.toNat / 16), hexDigitChar (c.toNat % 16)]
  else [c]

def escStr (s : Str) : Str := s.flatMap escChar

/-- The newline-plus-indentation run `json.dumps` emits before an item at
nesting level `k` when `indent=4`. -/
def nlIndent (k : Nat) : Str := '\n' :: List.replicate (4 * k) ' '

/-- An opening curly brace. -/
def lbrace : Char := Char.ofNat 123

/-- A closing curly brace. -/
def rbrace : Char := Char.ofNat 125

/-- A rendered object key followed by the `": "` key separator. -/
def jdumpKey (s : Str) : Str := '"' :: (escStr s ++ ['"', ':', ' '])

mutual

/-- `json.dumps(value, ensure_ascii=False, indent=4)` at nesting level
`k`. -/
def jdumpVal : Nat → JVal → Str
  | _, .jnull => ['n', 'u', 'l', 'l']
  | _, .jstr s => '"' :: (escStr s ++ ['"'])
  | _, .jarr [] => ['[', ']']
  | k, .jarr (v :: vs) =>
    '[' :: (nlIndent (k + 1) ++ (jdumpVal (k + 1) v ++ jdumpArrTail k vs))
  | _, .jobj [] => [lbrace, rbrace]
  | k, .jobj (f :: fs) =>
    lbrace :: (nlIndent (k + 1) ++
      (jdumpKey f.1 ++ (jdumpVal (k + 1) f.2 ++ jdumpObjTail k fs)))

/-- The items of an array after the first: each preceded by a comma and
indentation; the closing bracket sits on its own line at level `k`. -/
def jdumpArrTail : Nat → List JVal → Str
  | k, [] => nlIndent k ++ [']']
  | k, v :: vs =>
    ',' :: (nlIndent (k + 1) ++ (jdumpVal (k + 1) v ++ jdumpArrTail k vs))

/-- The fields of an object after the first. -/
def jdumpObjTail : Nat → List (Str × JVal) → Str
  | k, [] => nlIndent k ++ [rbrace]
  | k, f :: fs =>
    ',' :: (nlIndent (k + 1) ++
      (jdumpKey f.1 ++ (jdumpVal (k + 1) f.2 ++ jdumpObjTail k fs)))

end

/-- `json.dumps(doc, ensure_ascii=False, indent=4)`. -/
def jdumps (v : JVal) : Str := jdumpVal 0 v

/-- An optional string as a JSON value (`None` becomes `null`). -/
def optStrJ : Option Str → JVal
  | some s => .jstr s
  | none => .jnull

/-- Field lookup in a rendered object. -/
def lookupField (fs : List (Str × JVal)) (k : Str) : Option JVal :=
  (fs.find? (fun p => p.1 == k)).map Prod.snd

/-! ## HTML serialization (lxml `tostring(..., encoding="unicode")`)

A plain serializer standing in for lxml's: tag, attributes in order,
children recursively. The fine points of lxml serialization (entity
escaping, void elements) do not affect any claim, since every serialized
string is consumed either by an oracle or by substring removal of the
exact wrapper markers. -/

mutual

def serializeNode : Node → Str
  | .textn s => s
  | .elem t a cs =>
    '<' :: (t ++ serializeAttrs a ++ ['>'] ++ serializeNodes cs ++
      ('<' :: '/' :: (t ++ ['>'])))

def serializeAttrs : List (Str × Str) → Str
  | [] => []
  | (k, v) :: r => ' ' :: (k ++ ('=' :: '"' :: (v ++ ['"'])) ++ serializeAttrs r)

def serializeNodes : List Node → Str
  | [] => []
  | n :: ns => serializeNode n ++ serializeNodes ns

end

/-! ## External-library oracle bundle -/

/-- The external functions the normalizers call: lxml's HTML parser, the
two newspaper strategies, `html.unescape` and `hashlib.md5(...).
hexdigest()`. All are opaque to the repository; the embedding passes them
in. -/
structure Ext where
  fromstring : Str → Node
  artO : ExtractOracle
  fulltextO : ExtractOracle
  unescape : Str → Str
  md5hex : Str → Str

/-! ## ElementTree path queries

The XML normalizer uses only `.//`-prefixed paths whose steps are tag
names, optionally with one attribute predicate. -/

/-- A step's attribute predicate: none, `[@name]`, or `[@name='value']`. -/
inductive AttrPred where
  | anyAttr
  | hasAttr (name : Str)
  | eqAttr (name : Str) (val : Str)

/-- Does the node match one path step? -/
def stepMatches (st : Str × AttrPred) (n : Node) : Bool :=
  match n with
  | .elem t _ _ =>
    t == st.1 &&
      (match st.2 with
       | .anyAttr => true
       | .hasAttr nm => (getAttr n nm).isSome
       | .eqAttr nm v =>
         (match getAttr n nm with | some w => w == v | none => false))
  | .textn _ => false

/-- Element children of a node. -/
def childrenOf : Node → List Node
  | .elem _ _ cs => cs
  | .textn _ => []

/-- The nodes reached from `n` by a chain of child steps. -/
def chainFrom (n : Node) : List (Str × AttrPred) → List Node
  | [] => [n]
  | st :: rest =>
    ((childrenOf n).filter (stepMatches st)).flatMap (fun c => chainFrom c rest)

/-- `element.findall(".//s1/s2/...")`: the first step ranges over the
strict descendants, the remaining steps over children, in document
order. -/
def findPath (r : Node) : List (Str × AttrPred) → List Node
  | [] => []
  | first :: rest =>
    ((strictDesc r).filter (stepMatches first)).flatMap (fun m => chainFrom m rest)

/-- `element.findtext(".//...")`: the text of the first matching element
(its leading text, or the empty string when it has none), or `None` when
no element matches. -/
def findtextP (r : Node) (p : List (Str × AttrPred)) : Option Str :=
  ((findPath r p).head?).map (fun n =>
    (match n with
     | .elem _ _ (Node.textn s :: _) => s
     | _ => []))

/-- A plain tag step. -/
def tstep (t : String) : Str × AttrPred := (t.data, .anyAttr)

/-! ## XML-feed normalizer: `NosDiario` (nosdiario.py)

Python `set` iteration order is implementation-defined; the embedding
renders each `set` as a first-occurrence deduplicated list in insertion
order, and no claim below depends on the order. -/

/-- The Python exceptions that escape the per-file processing. -/
inductive PyExc where
  | attributeError
  | indexError
  | nameError
  | valueError
deriving DecidableEq

/-- Bounded-fuel core of `dedup`; the fuel is the input length, so it
never runs out, and the structural formulation reduces in the kernel. -/
def dedupGo {α : Type} [BEq α] : Nat → List α → List α
  | 0, l => l
  | _, [] => []
  | fuel + 1, a :: as => a :: dedupGo fuel (as.filter (fun b => !(b == a)))

/-- First-occurrence deduplication (the embedding of Python `set`
accumulation, read back in insertion order). -/
def dedup {α : Type} [BEq α] (l : List α) : List α := dedupGo l.length l

/-- `str(x)` of an optional string, as an f-string renders it
(`None` prints as `None`). -/
def pyStr (o : Option Str) : Str := o.getD (("None").data)

/-- `NosDiario._get_metadata` (nosdiario.py, lines 127-140). -/
def nos_get_metadata (tree : Node) : List (Str × JVal) :=
  [(("news_item_id").data,
      optStrJ (findtextP tree [tstep ("NewsIdentifier"), tstep ("NewsItemId")])),
   (("first_created").data,
      optStrJ (findtextP tree [tstep ("NewsManagement"), tstep ("FirstCreated")])),
   (("first_published").data,
      optStrJ (findtextP tree [tstep ("NewsManagement"), tstep ("FirstPublished")])),
   (("this_revision_created").data,
      optStrJ (findtextP tree [tstep ("NewsManagement"), tstep ("ThisRevisionCreated")]))]

/-- `NosDiario._get_headlines`. -/
def nos_get_headlines (tree : Node) : Option Str :=
  findtextP tree [tstep ("NewsLines"), tstep ("HeadLine")]

/-- `NosDiario._get_subheadlines`. -/
def nos_get_subheadlines (tree : Node) : Option Str :=
  findtextP tree [tstep ("NewsLines"), tstep ("SubHeadLine")]

/-- `NosDiario._get_categories` (lines 160-170): the `Value` attributes of
`Property` elements whose `FormalName` is `Tesauro`, as a set. A matching
`Property` without a `Value` attribute contributes Python `None`. -/
def nos_get_categories (tree : Node) : List (Option Str) :=
  dedup (((findPath tree [tstep ("Property")]).filter
    (fun n => getAttr n (("FormalName").data) == some (("Tesauro").data))).map
      (fun n => getAttr n (("Value").data)))

/-- `NosDiario._get_url` (lines 172-186): raises `AttributeError` when the
`DateId` element is missing (`None.split`); an f-string renders a `None`
identifier or category as the text `None`. -/
def nos_get_url (cfg : NosConfig) (tree : Node) (category : Option Str) :
    Except PyExc Str :=
  let uid := findtextP tree [tstep ("NewsIdentifier"), tstep ("NewsItemId")]
  match findtextP tree [tstep ("NewsIdentifier"), tstep ("DateId")] with
  | none => .error .attributeError
  | some dateId =>
    .ok (cfg.base_url ++ ("/articulo/").data ++ pyStr category ++ ("/-/").data ++
      strReplace2 (("T").data) [] ((dateId.splitOn '+').headD []) ++
      pyStr uid ++ (".html").data)

/-- `clean_html_abstract` (html_content.py, lines 53-61): parse, take all
text content, collapse whitespace runs. -/
def clean_html_abstract (E : Ext) (html_content : Str) : Str :=
  List.intercalate [' ']
    ((textContent (E.fromstring html_content)).splitOnP pyIsSpace |>.filter
      (fun w => !w.isEmpty))

/-- Single-pass removal of `<strong>` and `</strong>` tags (the regex
`<(/?)(strong)>` with empty replacement). -/
def removeStrongTags : Nat → Str → Str
  | 0, s => s
  | _, [] => []
  | fuel + 1, c :: t =>
    if (("<strong>").data).isPrefixOf (c :: t) then
      removeStrongTags fuel ((c :: t).drop 8)
    else if (("</strong>").data).isPrefixOf (c :: t) then
      removeStrongTags fuel ((c :: t).drop 9)
    else c :: removeStrongTags fuel t

/-- `prepare_html` (html_content.py, lines 64-77): strip emphasis tags,
collapse the `<p><br>\n` artifact, unescape entities, and wrap in the
fixed document shell (whose class marker uses single quotes). -/
def prepare_html (E : Ext) (html_content : Str) : Str :=
  let h1 := removeStrongTags html_content.length html_content
  let h2 := strReplace2 (("<p><br>\n").data) (("<p>").data) h1
  ("<html><body><p class=").data ++ [Char.ofNat 39] ++ ("article").data ++
    [Char.ofNat 39] ++ ['>'] ++
    (if pyTruthy h2 then E.unescape (pyStrip h2) else []) ++
    ("</p></body></html>").data

/-- `NosDiario._get_abstract` (lines 188-211): two alternate paths joined
by Python `or`; a truthy result is prepared, stripped and cleaned; the
catch of `RuntimeError` leaves whatever was assigned (possibly empty). -/
def nos_get_abstract (E : Ext) (tree : Node) : Str :=
  let abstractHtml := pyOrOpt
    (findtextP tree [(("ContentItem").data,
        .eqAttr (("type").data) (("article").data)),
      tstep ("DataContent"), tstep ("nitf"), tstep ("body"), tstep ("body.head"),
      tstep ("abstract"), tstep ("p")])
    (findtextP tree [tstep ("abstract"), tstep ("p")])
  match abstractHtml with
  | some ah =>
    if pyTruthy ah then clean_html_abstract E (pyStrip (prepare_html E ah))
    else []
  | none => []

/-- `NosDiario._get_html_body` (lines 213-224). -/
def nos_get_html_body (tree : Node) : Option Str :=
  pyOrOpt
    (findtextP tree [(("ContentItem").data,
        .eqAttr (("type").data) (("article").data)),
      tstep ("DataContent"), tstep ("nitf"), tstep ("body"), tstep ("body.content")])
    (findtextP tree [tstep ("body.content")])

/-- `NosDiario._get_body` (lines 226-240): prepare, clean; the
`RuntimeError` catch leaves the body empty. -/
def nos_get_body (E : Ext) (body_html : Str) : Str :=
  match clean_html_body E.artO E.fulltextO (.strc (prepare_html E body_html)) with
  | .ok b => b
  | .error _ => []

/-- `NosDiario._get_related` (lines 242-271) at the string level: wrap,
parse with lxml, extract and prune (see `getRelatedDoc`), serialize, and
cut the wrapper markers back off. -/
def nos_get_related (E : Ext) (cfg : NosConfig) (body : Str) :
    List Related × Str :=
  let doc := E.fromstring
    ((("<html><body>").data) ++ body ++ (("</body></html>").data))
  let pr := getRelatedDoc cfg doc
  (pr.1,
    strReplace2 (("</body></html>").data) []
      (strReplace2 (("<html><body>").data) [] (serializeNode pr.2)))

/-- A related entry as the JSON object the source stores. -/
def relatedJ (r : Related) : JVal :=
  .jobj [(("link").data, .jstr r.link), (("title").data, .jstr r.title),
    (("newsid").data, .jstr r.newsid)]

/-- `NosDiario._get_keywords` (lines 281-291): the comma-split, stripped
tokens of every `keyword` element's `key` attribute, as a set; a `keyword`
element without a `key` attribute raises `AttributeError`
(`None.split`). -/
def nos_get_keywords (tree : Node) : Except PyExc (List Str) :=
  ((findPath tree [tstep ("keyword")]).foldlM (fun (acc : List Str) kw =>
    (match getAttr kw (("key").data) with
     | none => Except.error PyExc.attributeError
     | some k => Except.ok (acc ++ ((k.splitOn ',').map pyStrip)))) []).map dedup

/-- Python string `≤` (code-point lexicographic). -/
def strLe : Str → Str → Bool
  | [], _ => true
  | _ :: _, [] => false
  | a :: as, b :: bs =>
    if a.toNat < b.toNat then true
    else if a.toNat = b.toNat then strLe as bs
    else false

/-- Stable insertion into a sorted list, comparing lowercased keys
(`sorted(..., key=str.lower)`). -/
def insSortedLower (a : Str) : List Str → List Str
  | [] => [a]
  | b :: bs =>
    if strLe (a.map Char.toLower) (b.map Char.toLower) then a :: b :: bs
    else b :: insSortedLower a bs

/-- `sorted(xs, key=str.lower)` (stable). -/
def sortByLower (xs : List Str) : List Str := xs.foldr insSortedLower []

/-- Does the string end with the suffix? (`str.endswith`) -/
def strEndsWith (suf s : Str) : Bool := suf.isSuffixOf s

/-- `NosDiario._get_photo_urls` (lines 306-333): URL set from `.file`
sub-components (raising when the `ContentItem[@Href]` is missing), caption
set from `.text` sub-components (raising when the caption path text is
missing — the second, identical `elif` branch of the source is dead code);
pairs are zipped only when both sets have equal non-zero size. -/
def nos_get_photo_urls (component : Node) : Except PyExc (List (Str × Str)) :=
  ((findPath component [tstep ("NewsComponent")]).foldlM
    (fun (acc : List Str × List Str) subc =>
      let duid := (getAttr subc (("Duid").data)).getD []
      if strEndsWith ((".file").data) duid then
        match (findPath subc [(("ContentItem").data,
            .hasAttr (("Href").data))]).head? with
        | none => Except.error PyExc.attributeError
        | some ci =>
          Except.ok (acc.1 ++ [pyStrip ((getAttr ci (("Href").data)).getD [])],
            acc.2)
      else if strEndsWith ((".text").data) duid then
        match findtextP subc [tstep ("DataContent"), tstep ("nitf"), tstep ("body"),
            tstep ("body.content"), tstep ("p")] with
        | none => Except.error PyExc.attributeError
        | some cap => Except.ok (acc.1, acc.2 ++ [pyStrip cap])
      else Except.ok acc) ([], [])).map (fun acc =>
    let urls := dedup acc.1
    let caps := dedup acc.2
    if urls.length = caps.length ∧ 0 < urls.length then urls.zip caps else [])

/-- `NosDiario._get_images` (lines 293-304): the photo pairs of the last
`NewsComponent` whose `Duid` ends in `.photos`. -/
def nos_get_images (tree : Node) : Except PyExc (List (Str × Str)) :=
  (findPath tree [tstep ("NewsComponent")]).foldlM (fun acc nc =>
    if strEndsWith ((".photos").data) ((getAttr nc (("Duid").data)).getD []) then
      nos_get_photo_urls nc
    else .ok acc) []

/-- An image pair as the JSON object the source stores. -/
def imageJ (p : Str × Str) : JVal :=
  .jobj [(("url").data, .jstr p.1), (("caption").data, .jstr p.2)]

/-- `NosDiario._parse_article` (lines 76-125), with the dict built in the
source's insertion order. `.ok none` covers both falsy returns (`{}` on
zero categories, `None` on empty body or on empty abstract-and-body). -/
def nos_parse_article (E : Ext) (cfg : NosConfig) (tree : Node) :
    Except PyExc (Option (List (Str × JVal))) :=
  let headline := nos_get_headlines tree
  let subheadline := nos_get_subheadlines tree
  let categories := nos_get_categories tree
  if categories.length < 1 then .ok none
  else
    let abstract := nos_get_abstract E tree
    match nos_get_html_body tree with
    | none => .error .attributeError
    | some bodyHtml0 =>
      if (pyStrip bodyHtml0).isEmpty then .ok none
      else
        let rb := nos_get_related E cfg bodyHtml0
        let body := nos_get_body E rb.2
        if abstract.isEmpty && body.isEmpty then .ok none
        else
          match nos_get_keywords tree with
          | .error e => .error e
          | .ok keywords =>
            match nos_get_images tree with
            | .error e => .error e
            | .ok images =>
              .ok (some (
                (match headline with
                 | some h => if pyTruthy h then [(("headline").data, JVal.jstr h)] else []
                 | none => []) ++
                (match subheadline with
                 | some h => if pyTruthy h then [(("subheadline").data, JVal.jstr h)] else []
                 | none => []) ++
                [(("categories").data, JVal.jarr (categories.map optStrJ))] ++
                (if pyTruthy abstract then [(("abstract").data, JVal.jstr abstract)] else []) ++
                [(("body_html").data, JVal.jstr rb.2), (("body").data, JVal.jstr body)] ++
                (if rb.1.isEmpty then []
                 else [(("related").data, JVal.jarr (rb.1.map relatedJ))]) ++
                (if keywords.isEmpty then []
                 else [(("keywords").data,
                   JVal.jarr ((sortByLower keywords).map JVal.jstr))]) ++
                (if images.isEmpty then []
                 else [(("images").data, JVal.jarr (images.map imageJ))])))

/-- The last path segment of a file name (`Path(...).name`). -/
def fileBaseName (name : Str) : Str := (name.splitOn '/').getLastD []

/-- `Path(x).with_suffix(".json")`: the final extension replaced (or
appended when there is none). The name passed in is already relative to
the source root (`xml_file.relative_to(source)`), mirroring the source's
path arithmetic. -/
def withSuffixJson (name : Str) : Str :=
  let parts := name.splitOn '.'
  (if parts.length ≤ 1 then name else List.intercalate ['.'] parts.dropLast) ++
    ((".json").data)

/-- The destination path of `NosDiario._write_json` (lines 335-348):
corpus root joined with the relative source path, suffix replaced. -/
def nosWritePath (cfg : NosConfig) (name : Str) : Str :=
  cfg.corpus ++ ('/' :: withSuffixJson name)

/-- How one source file presents to `NosDiario.parse`: zero bytes on
disk, XML that fails to parse, or a parsed tree. -/
inductive NosFileKind where
  | emptyFile
  | malformed
  | xml (root : Node)

/-- One input file: its path relative to the source root, and its
content. -/
structure NosInput where
  name : Str
  kind : NosFileKind

/-- What the loop body did for one file. -/
inductive NosOutcome where
  | skippedEmpty
  | skippedParseError
  | articleError
  | wrote
deriving DecidableEq

/-- The caller-visible normalizer state: the two counters `parse` touches,
plus the per-file outcome trace and the files written. -/
structure NosState where
  articles_ok : Nat
  articles_error : Nat
  trace : List NosOutcome
  writes : List (Str × Str)
deriving DecidableEq

/-- The body of the `for xml_path in xml_files` loop of `NosDiario.parse`
(lines 45-74), for one file: the outcome, and the write it performs, or
the Python exception that escapes. -/
def nos_process_file (E : Ext) (cfg : NosConfig) (inp : NosInput) :
    Except PyExc (NosOutcome × Option (Str × Str)) :=
  match inp.kind with
  | .emptyFile => .ok (.skippedEmpty, none)
  | .malformed => .ok (.skippedParseError, none)
  | .xml tree =>
    let metadata := nos_get_metadata tree
    match nos_parse_article E cfg tree with
    | .error e => .error e
    | .ok none => .ok (.articleError, none)
    | .ok (some news) =>
      match nos_get_url cfg tree ((nos_get_categories tree).headD none) with
      | .error e => .error e
      | .ok url =>
        let metadata2 :=
          if pyTruthy url then metadata ++ [(("url").data, JVal.jstr url)]
          else metadata
        let doc : JVal := .jobj
          [(("metadata").data, .jobj metadata2),
           (("news").data, .jobj news),
           (("source_xml").data, .jstr (fileBaseName inp.name))]
        .ok (.wrote, some (nosWritePath cfg inp.name, jdumps doc))

/-- A batch run: completed, or aborted by an uncaught exception (with the
state reached so far). -/
inductive RunResult (σ : Type) where
  | done (st : σ)
  | crashed (st : σ) (e : PyExc)
deriving DecidableEq

/-- `NosDiario.parse` over a list of files: per-file processing with the
counters updated exactly where the source updates them; an uncaught
exception aborts the loop. -/
def nos_parse (E : Ext) (cfg : NosConfig) :
    List NosInput → NosState → RunResult NosState
  | [], st => .done st
  | f :: fs, st =>
    match nos_process_file E cfg f with
    | .error e => .crashed st e
    | .ok pr =>
      nos_parse E cfg fs
        { articles_ok := st.articles_ok + (if pr.1 = .wrote then 1 else 0),
          articles_error :=
            st.articles_error + (if pr.1 = .articleError then 1 else 0),
          trace := st.trace ++ [pr.1],
          writes := st.writes ++ (match pr.2 with
            | some w => [w]
            | none => []) }

/-! ## HTML-scrape normalizer: `Praza` (prazapublica/praza.py) -/

/-- Configuration consumed by `Praza`. -/
structure PrazaConfig where
  base_url : Str
  corpus : Str
  source : Str

/-- The module-level `CATEGORIES` mapping (praza.py, lines 13-23); the
`\x7b\x7d` pair is the literal `{}` placeholder of the URL templates. -/
def CATEGORIES : List (Str × Str) :=
  [(("Política").data, ("https://praza.gal/politica/todo?p=\x7b\x7d").data),
   (("Deportes").data, ("https://praza.gal/deportes/todo?p=\x7b\x7d").data),
   (("Ciencia e tecnoloxía").data,
      ("https://praza.gal/ciencia-e-tecnoloxia/todo?p=\x7b\x7d").data),
   (("Acontece").data, ("https://praza.gal/acontece/todo?p=\x7b\x7d").data),
   (("Cultura").data, ("https://praza.gal/cultura/todo?p=\x7b\x7d").data),
   (("Lecer").data, ("https://praza.gal/lecer/todo?p=\x7b\x7d").data),
   (("Mundo").data, ("https://praza.gal/mundo/todo?p=\x7b\x7d").data),
   (("Economía").data, ("https://praza.gal/economia/todo?p=\x7b\x7d").data),
   (("Movementos sociais").data,
      ("https://praza.gal/movementos-sociais/todo?p=\x7b\x7d").data)]

/-- `//meta[@property=prop]/@content`, first value stripped
(`Praza._get_property`, lines 290-301). -/
def praza_get_property (tree : Node) (prop : Str) : Option Str :=
  ((((descOrSelf tree).filter (fun n =>
      isTag (("meta").data) n &&
        getAttr n (("property").data) == some prop)).filterMap
    (fun n => getAttr n (("content").data))).head?).map pyStrip

/-- `//meta[@name=name]/@content`, first value stripped
(`Praza._get_name`, lines 303-314). -/
def praza_get_name (tree : Node) (name : Str) : Option Str :=
  ((((descOrSelf tree).filter (fun n =>
      isTag (("meta").data) n &&
        getAttr n (("name").data) == some name)).filterMap
    (fun n => getAttr n (("content").data))).head?).map pyStrip

/-- `Praza._get_metadata` (lines 316-337): id and url only when `og:url`
is present and truthy; the published time is appended independently. -/
def praza_get_metadata (E : Ext) (tree : Node) : List (Str × JVal) :=
  let url := praza_get_property tree (("og:url").data)
  (match url with
   | some u =>
     if pyTruthy u then
       [(("news_item_id").data, JVal.jstr (E.md5hex u)),
        (("url").data, JVal.jstr u)]
     else []
   | none => []) ++
  (match praza_get_property tree (("article:published_time").data) with
   | some t =>
     if pyTruthy t then [(("this_revision_created").data, JVal.jstr t)] else []
   | none => [])

/-- `Praza._get_title` (lines 348-363): `og:title`, else the `title` meta
name, else empty; the outlet suffix is removed and the result stripped. -/
def praza_get_title (tree : Node) : Str :=
  match pyOrOpt (praza_get_property tree (("og:title").data))
      (praza_get_name tree (("title").data)) with
  | some t =>
    if pyTruthy t then
      pyStrip (strReplace2 ((" - Praza Pública").data) [] t)
    else []
  | none => []

/-- `Praza._get_abstract` (lines 365-380): `og:description`, else the
`description` meta name, else `None`. -/
def praza_get_abstract (tree : Node) : Option Str :=
  match pyOrOpt (praza_get_property tree (("og:description").data))
      (praza_get_name tree (("description").data)) with
  | some a => if pyTruthy a then some (pyStrip a) else none
  | none => none

/-- The XPath `//article[@id='article']//ul` (the taxonomy list
containers). -/
def articleUls (tree : Node) : List Node :=
  nestedElems
    (fun n => isTag (("article").data) n &&
      getAttr n (("id").data) == some (("article").data))
    (isTag (("ul").data)) false tree

/-- `Praza._get_categories` (lines 252-273): classify the anchors of the
first container by exact class; an empty container list raises
`AttributeError` (the source then calls `.xpath` on a plain list). The
`or ""` collapsing of the empty topic list to a string happens when the
document is assembled. -/
def taxStep (acc : List Str × Option Str × Option Str) (link : Node) :
    List Str × Option Str × Option Str :=
  let cls := (getAttr link (("class").data)).getD []
  if cls == ("topic").data then
    (acc.1 ++ [pyStrip (textContent link)], acc.2.1, acc.2.2)
  else if cls == ("area").data then
    (acc.1, some (pyStrip (textContent link)), acc.2.2)
  else if cls == ("local-edition").data then
    (acc.1, acc.2.1, some (pyStrip (textContent link)))
  else acc

/-- Does this anchor carry none of the three taxonomy classes? -/
def nonTaxonomyAnchor (link : Node) : Bool :=
  let cls := (getAttr link (("class").data)).getD []
  !(cls == ("topic").data || cls == ("area").data ||
    cls == ("local-edition").data)

def praza_get_categories (uls : List Node) :
    Except PyExc (Str × List Str × Str) :=
  match uls with
  | [] => .error .attributeError
  | container :: _ =>
    let step := ((strictDesc container).filter (isTag (("a").data))).foldl
      taxStep ([], none, none)
    .ok (pyOrElse step.2.1 [], step.1, pyOrElse step.2.2 [])

/-- The XPath `.//ul[contains(@class, 'at-archive-refs-list')]`. -/
def refsUls (tree : Node) : List Node :=
  (strictDesc tree).filter (fun n =>
    isTag (("ul").data) n && classContains (("at-archive-refs-list").data) n)

/-- `Praza._get_related` (lines 133-156): anchors under `ref-title`
headings of the first refs container; an anchor without `href` raises
`AttributeError`, one without text raises `IndexError`. -/
def praza_get_related (E : Ext) (cfg : PrazaConfig) (uls : List Node) :
    Except PyExc (List JVal) :=
  match uls with
  | [] => .ok []
  | first :: _ =>
    let h1s := (strictDesc first).filter (fun n =>
      isTag (("h1").data) n && classContains (("ref-title").data) n)
    let anchors := h1s.flatMap (fun h =>
      (childrenOf h).filter (isTag (("a").data)))
    anchors.foldlM (fun (acc : List JVal) link =>
      (match getAttr link (("href").data) with
       | none => Except.error PyExc.attributeError
       | some href0 =>
         let href := pyStrip href0
         match (textNodes link).head? with
         | none => Except.error PyExc.indexError
         | some t0 =>
           Except.ok (acc ++ [JVal.jobj
             [(("link").data, JVal.jstr (cfg.base_url ++ href)),
              (("title").data, JVal.jstr (pyStrip t0)),
              (("news_item_id").data,
                JVal.jstr (E.md5hex (cfg.base_url ++ href)))]]))) []

/-- The matched `article-body` containers,
`//div[contains(@class, 'article-body')]`. -/
def articleBodyDivs (tree : Node) : List Node :=
  (descOrSelf tree).filter (fun n =>
    isTag (("div").data) n && classContains (("article-body").data) n)

/-- `Praza._get_htmlbody` (lines 202-214): the first matching container
serialized, else `None`. -/
def praza_get_htmlbody (tree : Node) : Option Str :=
  ((articleBodyDivs tree).head?).map serializeNode

/-- `Praza._get_bodytext` (lines 216-229): the whole page serialized and
reduced; the `RuntimeError` catch returns `None`. -/
def praza_get_bodytext (E : Ext) (tree : Node) : Option Str :=
  match clean_html_body E.artO E.fulltextO (.strc (serializeNode tree)) with
  | .ok b => some b
  | .error _ => none

/-- `Praza._get_images` (lines 231-250): every `at-image` figure with an
href-bearing anchor; the caption is the first `figcaption` text if truthy,
else `null`. -/
def praza_get_images (tree : Node) : List JVal :=
  ((descOrSelf tree).filter (fun n =>
    isTag (("figure").data) n && classContains (("at-image").data) n)).filterMap
    (fun fig =>
      let capFirst := (((strictDesc fig).filter
        (isTag (("figcaption").data))).flatMap textNodes).head?
      let links := (strictDesc fig).filter (fun n =>
        isTag (("a").data) n && (getAttr n (("href").data)).isSome)
      match links.head? with
      | some l => some (JVal.jobj
          [(("url").data, JVal.jstr ((getAttr l (("href").data)).getD [])),
           (("caption").data,
             match capFirst with
             | some c =>
               if pyTruthy (pyStrip c) then JVal.jstr (pyStrip c) else JVal.jnull
             | none => JVal.jnull)])
      | none => none)

/-- `Praza._parse_article` (lines 158-200), with the dict built in the
source's insertion order; the empty topic list and absent category or
local edition collapse to empty strings exactly as `_get_categories`
returns them. -/
def praza_parse_article (E : Ext) (cfg : PrazaConfig) (tree : Node) :
    Except PyExc (Option (List (Str × JVal))) :=
  let title := praza_get_title tree
  let abstract := praza_get_abstract tree
  match praza_get_categories (articleUls tree) with
  | .error e => .error e
  | .ok cats =>
    match praza_get_related E cfg (refsUls tree) with
    | .error e => .error e
    | .ok related =>
      match praza_get_htmlbody tree with
      | none => .ok none
      | some bodyHtml =>
        match praza_get_bodytext E tree with
        | none => .ok none
        | some body =>
          let images := praza_get_images tree
          .ok (some
            [(("headline").data, JVal.jstr title),
             (("abstract").data, optStrJ abstract),
             (("taxonomy").data, JVal.jobj
               [(("categories").data, JVal.jarr [JVal.jstr cats.1]),
                (("topics").data,
                  if cats.2.1.isEmpty then JVal.jstr []
                  else JVal.jarr (cats.2.1.map JVal.jstr)),
                (("local-edition").data, JVal.jstr cats.2.2)]),
             (("body_html").data, JVal.jstr bodyHtml),
             (("body").data, JVal.jstr body),
             (("related").data, JVal.jarr related),
             (("images").data, JVal.jarr images)])

/-- How one source file presents to `Praza.parse`: an unreadable file
(`_get_content` raising, caught), HTML whose parse raises (caught), or a
parsed tree. -/
inductive PrazaFileKind where
  | readError
  | parseErrorHtml
  | html (tree : Node)

/-- One input file for `Praza.parse`. -/
structure PrazaInput where
  name : Str
  kind : PrazaFileKind

/-- What the loop body did for one file. -/
inductive PrazaOutcome where
  | errored
  | wrote
deriving DecidableEq

/-- The caller-visible `Praza` state. -/
structure PrazaState where
  articles_ok : Nat
  articles_error : Nat
  articles_exists : Nat
  trace : List PrazaOutcome
  writes : List (Str × Str)
deriving DecidableEq

/-- The destination path of `Praza._write_json` (lines 118-131). -/
def prazaWritePath (cfg : PrazaConfig) (name : Str) : Str :=
  cfg.corpus ++ ('/' :: withSuffixJson name)

/-- The body of the `for html_file in html_files` loop of `Praza.parse`
(lines 86-116) for one file. -/
def praza_process_file (E : Ext) (cfg : PrazaConfig) (inp : PrazaInput) :
    Except PyExc (PrazaOutcome × Option (Str × Str)) :=
  match inp.kind with
  | .readError => .ok (.errored, none)
  | .parseErrorHtml => .ok (.errored, none)
  | .html tree =>
    let metadata := praza_get_metadata E tree
    match praza_parse_article E cfg tree with
    | .error e => .error e
    | .ok none => .ok (.errored, none)
    | .ok (some news) =>
      let doc : JVal := .jobj
        [(("metadata").data, .jobj metadata),
         (("news").data, .jobj news),
         (("source").data, .jstr inp.name)]
      .ok (.wrote, some (prazaWritePath cfg inp.name, jdumps doc))

/-- `Praza.parse` over a list of files. -/
def praza_parse (E : Ext) (cfg : PrazaConfig) :
    List PrazaInput → PrazaState → RunResult PrazaState
  | [], st => .done st
  | f :: fs, st =>
    match praza_process_file E cfg f with
    | .error e => .crashed st e
    | .ok pr =>
      praza_parse E cfg fs
        { articles_ok := st.articles_ok + (if pr.1 = .wrote then 1 else 0),
          articles_error :=
            st.articles_error + (if pr.1 = .errored then 1 else 0),
          articles_exists := st.articles_exists,
          trace := st.trace ++ [pr.1],
          writes := st.writes ++ (match pr.2 with
            | some w => [w]
            | none => []) }

/-! ## `Praza` download flow (praza.py, lines 41-77 and 382-471) -/

/-- The external effects of the download flow: `Request.fetch`, the
existence check, `mkdir` and the article write (each `.error` models the
call raising). -/
structure DlExt where
  fetchO : Str → Except Unit Str
  existsO : Str → Bool
  mkdirO : Str → Except Unit Unit
  writeO : Str → Str → Except Unit Unit

/-- The message component of `_download_article`'s result. -/
inductive DlMsg where
  | okMsg
  | existsMsg
  | emptyContentMsg
  | excMsg
deriving DecidableEq

/-- `{}.format(page)`: the template's placeholder replaced by the decimal
page number. -/
def formatPage (template : Str) (page : Nat) : Str :=
  strReplace2 [lbrace, rbrace] (Nat.toDigits 10 page) template

/-- `Praza._download_article` (lines 382-421): a missing `datetime`
attribute leaves the Python date as `[]`, and `[].split` raises
`AttributeError`; a date without exactly three dash parts fails the tuple
unpacking (`ValueError`). -/
def praza_download_article (D : DlExt) (cfg : PrazaConfig) (url : Str)
    (isodate : Option Str) : Except PyExc (Bool × DlMsg) :=
  match isodate with
  | none => .error .attributeError
  | some iso =>
    match ((((iso.splitOn '.').headD []).splitOn 'T').headD []).splitOn '-' with
    | [y, m, d] =>
      let outDir := cfg.source ++ ('/' :: y) ++ ('/' :: m)
      match D.mkdirO outDir with
      | .error _ => .ok (false, .excMsg)
      | .ok _ =>
        let filename := ("praza_").data ++ y ++ m ++ d ++
          ('_' :: lastSegment url) ++ ((".html").data)
        let outPath := outDir ++ ('/' :: filename)
        if D.existsO outPath then .ok (true, .existsMsg)
        else
          match D.fetchO url with
          | .error _ => .ok (false, .excMsg)
          | .ok content =>
            if content.isEmpty then .ok (false, .emptyContentMsg)
            else
              match D.writeO outPath content with
              | .error _ => .ok (false, .excMsg)
              | .ok _ => .ok (true, .okMsg)
    | _ => .error .valueError

/-- The `//ul[contains(@class, "articles-list")]//article` entries. -/
def articlesListEntries (tree : Node) : List Node :=
  nestedElems
    (fun n => isTag (("ul").data) n &&
      classContains (("articles-list").data) n)
    (isTag (("article").data)) false tree

/-- The first `.//h2[contains(@class, "headline")]/a/@href` of an entry;
`none` models the un-reassigned Python `[]`, which the f-string renders
as the text `[]`. -/
def entryHref (a : Node) : Option Str :=
  ((((strictDesc a).filter (fun n =>
      isTag (("h2").data) n && classContains (("headline").data) n)).flatMap
    (fun h => (childrenOf h).filter (isTag (("a").data)))).filterMap
    (fun l => getAttr l (("href").data))).head?

/-- The first `.//time[contains(@class, "date")]/@datetime` of an entry. -/
def entryDate (a : Node) : Option Str :=
  (((strictDesc a).filter (fun n =>
      isTag (("time").data) n && classContains (("date").data) n)).filterMap
    (fun t => getAttr t (("datetime").data))).head?

/-- The per-article body of `_get_articles_in_page` (lines 423-454),
updating the three counters from `_download_article`'s result. -/
def praza_article_step (D : DlExt) (cfg : PrazaConfig) (st : PrazaState)
    (a : Node) : Except PyExc PrazaState :=
  let hrefStr := (entryHref a).getD (("[]").data)
  match praza_download_article D cfg (cfg.base_url ++ hrefStr) (entryDate a) with
  | .error e => .error e
  | .ok (true, .existsMsg) =>
    .ok { st with articles_exists := st.articles_exists + 1 }
  | .ok (true, _) => .ok { st with articles_ok := st.articles_ok + 1 }
  | .ok (false, _) => .ok { st with articles_error := st.articles_error + 1 }

/-- The loop of `_get_articles_in_page` over the page's entries. -/
def praza_articles_go (D : DlExt) (cfg : PrazaConfig) :
    List Node → PrazaState → RunResult PrazaState
  | [], st => .done st
  | a :: rest, st =>
    match praza_article_step D cfg st a with
    | .error e => .crashed st e
    | .ok st2 => praza_articles_go D cfg rest st2

/-- `Praza._get_articles_in_page` (lines 423-454). -/
def praza_articles_in_page (D : DlExt) (cfg : PrazaConfig) (tree : Node)
    (st : PrazaState) : RunResult PrazaState :=
  praza_articles_go D cfg (articlesListEntries tree) st

/-- `Praza._get_category_end` (lines 456-471): the largest numeric
pagination link, defaulting to 1. -/
def praza_category_end (tree : Node) : Nat :=
  let links := nestedElems
    (fun n => isTag (("nav").data) n &&
      classContains (("at-pagination").data) n)
    (fun n => isTag (("a").data) n &&
      classContains (("pagination-link").data) n) false tree
  let nums := links.filterMap (fun l =>
    let t := textContent l
    if !t.isEmpty && t.all Char.isDigit then
      some (t.foldl (fun acc c => acc * 10 + (c.toNat - 48)) 0)
    else none)
  if nums.isEmpty then 1 else nums.foldl Nat.max 0

/-- The `for page in range(2, last_page + 1)` loop of
`download_from_category`: a failed page fetch is logged and the previous
iteration's still-bound `response` is re-parsed (the source never rebinds
it on failure). -/
def praza_pages_loop (D : DlExt) (E : Ext) (cfg : PrazaConfig)
    (urlT : Str) : Nat → Nat → Str → PrazaState → RunResult PrazaState
  | 0, _, _, st => .done st
  | fuel + 1, page, prevResp, st =>
    let resp := match D.fetchO (formatPage urlT page) with
      | .ok r => r
      | .error _ => prevResp
    match praza_articles_in_page D cfg (E.fromstring resp) st with
    | .done st2 => praza_pages_loop D E cfg urlT fuel (page + 1) resp st2
    | .crashed st2 e => .crashed st2 e

/-- How a `download_from_category` call ends. -/
inductive DlRun where
  | invalidCategory (st : PrazaState)
  | crashedDl (st : PrazaState) (e : PyExc)
  | finished (st : PrazaState)
deriving DecidableEq

/-- `Praza.download_from_category` (lines 41-77): the category guard
raises `ValueError` before anything else runs; a failed first-page fetch
leaves `response` unbound, so the following `h.fromstring(response)`
raises `NameError`. -/
def praza_download_from_category (D : DlExt) (E : Ext) (cfg : PrazaConfig)
    (st : PrazaState) (category : Str) : DlRun :=
  if (CATEGORIES.map Prod.fst).contains category then
    match (CATEGORIES.find? (fun p => p.1 == category)).map Prod.snd with
    | none => .invalidCategory st
    | some urlT =>
      match D.fetchO (formatPage urlT 1) with
      | .error _ => .crashedDl st .nameError
      | .ok resp =>
        let tree := E.fromstring resp
        let lastPage := praza_category_end tree
        match praza_articles_in_page D cfg tree st with
        | .crashed st2 e => .crashedDl st2 e
        | .done st2 =>
          match praza_pages_loop D E cfg urlT (lastPage - 1) 2 resp st2 with
          | .done st3 => .finished st3
          | .crashed st3 e => .crashedDl st3 e
  else .invalidCategory st

/-! ## Concrete instantiation material shared by the batch-level claims -/

/-- Is an `Except` value a success? -/
def exceptOk {ε α : Type} : Except ε α → Bool
  | .ok _ => true
  | .error _ => false

/-- Did this per-file result count as an article error (XML loop)? -/
def nosIsErrOutcome (r : Except PyExc (NosOutcome × Option (Str × Str))) : Bool :=
  match r with
  | .ok (o, _) => o == .articleError
  | .error _ => false

/-- Did this per-file result write a document (XML loop)? -/
def nosIsWroteOutcome (r : Except PyExc (NosOutcome × Option (Str × Str))) : Bool :=
  match r with
  | .ok (o, _) => o == .wrote
  | .error _ => false

/-- Did this per-file result count as an error (HTML loop)? -/
def prazaIsErrOutcome (r : Except PyExc (PrazaOutcome × Option (Str × Str))) : Bool :=
  match r with
  | .ok (o, _) => o == .errored
  | .error _ => false

/-- Did this per-file result write a document (HTML loop)? -/
def prazaIsWroteOutcome (r : Except PyExc (PrazaOutcome × Option (Str × Str))) : Bool :=
  match r with
  | .ok (o, _) => o == .wrote
  | .error _ => false

/-- A trivial oracle bundle: the parser yields an empty text node, both
newspaper strategies raise, unescape and md5 are the identity. -/
def ext0 : Ext :=
  ⟨fun _ => .textn [], fun _ => .error (), fun _ => .error (),
   fun s => s, fun s => s⟩

/-- An oracle bundle whose structured-article strategy returns the text
`t`. -/
def extBody : Ext :=
  ⟨fun _ => .textn [], fun _ => .ok (("t").data), fun _ => .error (),
   fun s => s, fun s => s⟩

/-- Fresh counters for the XML loop. -/
def nosState0 : NosState := ⟨0, 0, [], []⟩

/-- Fresh counters for the HTML loop. -/
def prazaState0 : PrazaState := ⟨0, 0, 0, [], []⟩

/-- An empty `Praza` configuration. -/
def pcfgEmpty : PrazaConfig := ⟨[], [], []⟩

/-- External effects for the download flow: every call fails or is a
no-op. -/
def dlExt0 : DlExt :=
  ⟨fun _ => .error (), fun _ => false, fun _ => .ok (), fun _ _ => .ok ()⟩

/-- An XML article with one `Tesauro` category but no body element at
all: `_get_html_body` returns Python `None` and `None.strip()` raises. -/
def nosBadTree : Node :=
  .elem (("NewsML").data) []
    [.elem (("Property").data)
      [((("FormalName").data), (("Tesauro").data)),
       ((("Value").data), (("Cultura").data))] []]

/-- An HTML page with no `article` list container at all:
`_get_categories` receives an empty node-set and raises. -/
def prazaBadTree : Node := .elem (("html").data) [] []

/-- A page with the taxonomy container but no article body. -/
def c7WitnessTree : Node :=
  .elem (("html").data) []
    [.elem (("article").data) [((("id").data), (("article").data))]
      [.elem (("ul").data) [] []]]

/-- The anchors of a taxonomy container. -/
def containerAnchors (container : Node) : List Node :=
  (strictDesc container).filter (isTag (("a").data))

/-- A page whose taxonomy container has only a non-taxonomy anchor, plus
an article body. -/
def c9WitnessTree : Node :=
  .elem (("html").data) []
    [.elem (("article").data) [((("id").data), (("article").data))]
      [.elem (("ul").data) []
        [.elem (("li").data) []
          [.elem (("a").data) [((("class").data), (("other").data))]
            [.textn (("anchor").data)]]]],
     .elem (("div").data) [((("class").data), (("article-body").data))]
       [.textn (("body text").data)]]

/-! ## Claim C8: the write/re-read round trip

`_write_json` writes `json.dumps(doc, ensure_ascii=False, indent=4)` and
fully overwrites the destination, so re-reading the file yields exactly
that text; re-parsing is `json.loads`, embedded below as a
recursive-descent parser over the same value fragment (`jloads`). The
parser is strict the way `json.loads` is: raw control characters inside
strings are rejected, string escapes are the JSON ones (astral `\u`
surrogate pairs never arise, since `ensure_ascii=False` writes non-ASCII
characters literally). -/

/-- The whitespace `json.loads` skips between tokens. -/
def isJsonWs (c : Char) : Bool :=
  c = ' ' || c = '\t' || c = '\n' || c = '\r'

def skipWs (s : Str) : Str := s.dropWhile isJsonWs

/-- A hexadecimal digit's value. -/
def hexVal (c : Char) : Option Nat :=
  if 48 ≤ c.toNat && c.toNat ≤ 57 then some (c.toNat - 48)
  else if 97 ≤ c.toNat && c.toNat ≤ 102 then some (c.toNat - 87)
  else if 65 ≤ c.toNat && c.toNat ≤ 70 then some (c.toNat - 55)
  else none

/-- Parse a JSON string body after the opening quote: the decoded
characters and the input after the closing quote. -/
def parseStrBody : Str → Option (Str × Str)
  | [] => none
  | '"' :: r => some ([], r)
  | '\\' :: r =>
    (match r with
     | '"' :: t => (parseStrBody t).map (fun p => ('"' :: p.1, p.2))
     | '\\' :: t => (parseStrBody t).map (fun p => ('\\' :: p.1, p.2))
     | '/' :: t => (parseStrBody t).map (fun p => ('/' :: p.1, p.2))
     | 'n' :: t => (parseStrBody t).map (fun p => ('\n' :: p.1, p.2))
     | 't' :: t => (parseStrBody t).map (fun p => ('\t' :: p.1, p.2))
     | 'r' :: t => (parseStrBody t).map (fun p => ('\r' :: p.1, p.2))
     | 'b' :: t => (parseStrBody t).map (fun p => (Char.ofNat 8 :: p.1, p.2))
     | 'f' :: t => (parseStrBody t).map (fun p => (Char.ofNat 12 :: p.1, p.2))
     | 'u' :: h1 :: h2 :: h3 :: h4 :: t =>
       (match hexVal h1, hexVal h2, hexVal h3, hexVal h4 with
        | some a, some b, some c, some d =>
          (parseStrBody t).map (fun p =>
            (Char.ofNat (((a * 16 + b) * 16 + c) * 16 + d) :: p.1, p.2))
        | _, _, _, _ => none)
     | _ => none)
  | c :: r =>
    if c.toNat < 32 then none
    else (parseStrBody r).map (fun p => (c :: p.1, p.2))

mutual

/-- One JSON value (null, string, array or object), fuel-bounded. -/
def parseVal : Nat → Str → Option (JVal × Str)
  | 0, _ => none
  | fuel + 1, s =>
    match skipWs s with
    | [] => none
    | c :: r =>
      if c = 'n' then
        match r with
        | 'u' :: 'l' :: 'l' :: r2 => some (.jnull, r2)
        | _ => none
      else if c = '"' then
        (parseStrBody r).map (fun p => (JVal.jstr p.1, p.2))
      else if c = '[' then
        match skipWs r with
        | [] => none
        | c2 :: r2 =>
          if c2 = ']' then some (.jarr [], r2)
          else
            match parseVal fuel (c2 :: r2) with
            | none => none
            | some (v, r3) =>
              match parseArrTail fuel r3 with
              | none => none
              | some (vs, r4) => some (.jarr (v :: vs), r4)
      else if c = lbrace then
        match skipWs r with
        | [] => none
        | c2 :: r2 =>
          if c2 = rbrace then some (.jobj [], r2)
          else
            match parseField fuel (c2 :: r2) with
            | none => none
            | some (kv, r3) =>
              match parseObjTail fuel r3 with
              | none => none
              | some (kvs, r4) => some (.jobj (kv :: kvs), r4)
      else none

/-- One `"key": value` member. -/
def parseField : Nat → Str → Option ((Str × JVal) × Str)
  | 0, _ => none
  | fuel + 1, s =>
    match skipWs s with
    | '"' :: r =>
      (match parseStrBody r with
       | none => none
       | some (key, r2) =>
         match skipWs r2 with
         | ':' :: r3 =>
           (match parseVal fuel r3 with
            | none => none
            | some (v, r4) => some ((key, v), r4))
         | _ => none)
    | _ => none

/-- The rest of an array after one parsed element: `]`, or `,` then
another element. -/
def parseArrTail : Nat → Str → Option (List JVal × Str)
  | 0, _ => none
  | fuel + 1, s =>
    match skipWs s with
    | ']' :: r => some ([], r)
    | ',' :: r =>
      (match parseVal fuel r with
       | none => none
       | some (v, r2) =>
         match parseArrTail fuel r2 with
         | none => none
         | some (vs, r3) => some (v :: vs, r3))
    | _ => none

/-- The rest of an object after one parsed member. -/
def parseObjTail : Nat → Str → Option (List (Str × JVal) × Str)
  | 0, _ => none
  | fuel + 1, s =>
    match skipWs s with
    | [] => none
    | c :: r =>
      if c = rbrace then some ([], r)
      else if c = ',' then
        match parseField fuel r with
        | none => none
        | some (kv, r2) =>
          match parseObjTail fuel r2 with
          | none => none
          | some (kvs, r3) => some (kv :: kvs, r3)
      else none

end

/-- `json.loads` on the document fragment: one value, then only trailing
whitespace. -/
def jloads (s : Str) : Option JVal :=
  match parseVal (s.length + 1) s with
  | some (v, rest) => if (skipWs rest).isEmpty then some v else none
  | none => none

mutual

/-- A structural size with strict-slack at every recursive position; it
lower-bounds both the parser fuel and the rendered length. -/
def jsize : JVal → Nat
  | .jnull => 1
  | .jstr _ => 1
  | .jarr items => 1 + jsizeL items
  | .jobj fields => 1 + jsizeF fields

def jsizeL : List JVal → Nat
  | [] => 0
  | v :: vs => 1 + jsize v + jsizeL vs

def jsizeF : List (Str × JVal) → Nat
  | [] => 0
  | f :: fs => 2 + jsize f.2 + jsizeF fs

end

example : clean_chars (.strc ('a' :: Char.ofNat 0 :: ['b'])) = ['a', ' ', 'b'] := by decide

example : clean_chars_specRemoval (.strc ('a' :: Char.ofNat 0 :: ['b'])) = ['a', 'b'] := by
  decide

example : clean_chars (.strc (' ' :: 'x' :: [' '])) = ['x'] := by decide

/-! ### Generic facts about `dropWhile` and `pyStrip` -/

theorem dropWhile_head_false {α : Type} (p : α → Bool) :
    ∀ {l : List α} {c : α} {t : List α}, List.dropWhile p l = c :: t → p c = false := by
  intro l
  induction l with
  | nil => intro c t h; simp [List.dropWhile] at h
  | cons a l ih =>
    intro c t h
    rw [List.dropWhile_cons] at h
    by_cases hp : p a
    · rw [if_pos hp] at h; exact ih h
    · rw [if_neg hp] at h
      cases h
      simpa using hp

theorem dropWhile_idem {α : Type} (p : α → Bool) (l : List α) :
    List.dropWhile p (List.dropWhile p l) = List.dropWhile p l := by
  match h : List.dropWhile p l with
  | [] => rfl
  | c :: t =>
    rw [List.dropWhile_cons, if_neg]
    simp [dropWhile_head_false p h]

theorem dropWhile_suffix_of {α : Type} (p : α → Bool) (l : List α) :
    List.dropWhile p l <:+ l :=
  ⟨List.takeWhile p l, List.takeWhile_append_dropWhile p l⟩

theorem mem_pyStrip {c : Char} {s : Str} (h : c ∈ pyStrip s) : c ∈ s := by
  unfold pyStrip at h
  rw [List.mem_reverse] at h
  have h2 := (dropWhile_suffix_of pyIsSpace _).sublist.subset h
  rw [List.mem_reverse] at h2
  exact (dropWhile_suffix_of pyIsSpace _).sublist.subset h2

theorem pyStrip_idem (s : Str) : pyStrip (pyStrip s) = pyStrip s := by
  unfold pyStrip
  have hinner :
      List.dropWhile pyIsSpace
        (((s.dropWhile pyIsSpace).reverse.dropWhile pyIsSpace).reverse) =
      ((s.dropWhile pyIsSpace).reverse.dropWhile pyIsSpace).reverse := by
    match hB : ((s.dropWhile pyIsSpace).reverse.dropWhile pyIsSpace).reverse with
    | [] => rfl
    | c :: t =>
      -- `c :: t` is a prefix of `s.dropWhile pyIsSpace`, so `c` fails the
      -- whitespace test and nothing is dropped.
      have hsuf : (s.dropWhile pyIsSpace).reverse.dropWhile pyIsSpace <:+
          (s.dropWhile pyIsSpace).reverse := dropWhile_suffix_of _ _
      have hpre : c :: t <+: s.dropWhile pyIsSpace := by
        have := List.reverse_prefix.mpr hsuf
        rw [List.reverse_reverse] at this
        rw [← hB]
        exact this
      obtain ⟨u, hu⟩ := hpre
      have hc : pyIsSpace c = false := by
        apply dropWhile_head_false pyIsSpace (l := s) (t := t ++ u)
        rw [← List.cons_append, hu]
      rw [List.dropWhile_cons, if_neg]
      simp [hc]
  rw [hinner, List.reverse_reverse, dropWhile_idem]

/-! ### Claim C5 theorems -/

/-- Claim C5 counterexample: `clean_chars` does not remove the banned
control characters; it replaces each of them with a space (which `strip`
only trims at the ends). On the input string `"a\x00b"` the source code
yields `"a b"`, while the removal wording of the claim would yield `"ab"`. -/
theorem claim_C5_counterexample :
    clean_chars (.strc ('a' :: Char.ofNat 0 :: ['b'])) = ['a', ' ', 'b'] ∧
    clean_chars_specRemoval (.strc ('a' :: Char.ofNat 0 :: ['b'])) = ['a', 'b'] ∧
    clean_chars (.strc ('a' :: Char.ofNat 0 :: ['b'])) ≠
      clean_chars_specRemoval (.strc ('a' :: Char.ofNat 0 :: ['b'])) :=
  ⟨by decide, by decide, by decide⟩

/-- Claim C5 (amended): `clean_chars` decodes byte input as UTF-8 with
lossy replacement, replaces each banned ASCII control character (C0 codes
except tab, newline, carriage return, plus DEL) with a space, and trims
leading/trailing whitespace. It never fails (it is a total function by
construction), its output contains no banned control character, its output
carries no leading or trailing whitespace, and empty input yields empty
output. -/
theorem claim_C5 :
    (∀ content : PyContent, (clean_chars content).all (fun c => !ctrlBanned c)) ∧
    (∀ content : PyContent, pyStrip (clean_chars content) = clean_chars content) ∧
    (∀ bs : List Nat, clean_chars (.bytesc bs) = clean_chars (.strc (utf8DecodeReplace bs))) ∧
    clean_chars (.strc []) = [] ∧ clean_chars (.bytesc []) = [] := by
  refine ⟨?_, ?_, ?_, by decide, by simp [clean_chars, utf8DecodeReplace, pyStrip]⟩
  · intro content
    rw [List.all_eq_true]
    intro c hc
    have hmem : c ∈ (match content with
        | PyContent.strc s => s
        | PyContent.bytesc bs => utf8DecodeReplace bs).map
          (fun c => if ctrlBanned c then ' ' else c) := mem_pyStrip hc
    rw [List.mem_map] at hmem
    obtain ⟨x, _, hx⟩ := hmem
    by_cases hb : ctrlBanned x
    · rw [if_pos hb] at hx
      subst hx
      decide
    · rw [if_neg hb] at hx
      subst hx
      simp [hb]
  · intro content
    exact pyStrip_idem _
  · intro bs
    rfl

/-- Claim C4 (confirmed): `clean_html_body` fails with the empty-content
error iff the sanitized input is empty; given non-empty sanitized input it
fails with the extraction-failed error iff both strategies yield an
effectively empty result; a non-empty structured-article result is
returned as-is (the fulltext strategy is not consulted); and exceptions
raised inside either strategy are indistinguishable from an empty result
(they never propagate). -/
theorem claim_C4 :
    (∀ (a f : ExtractOracle) (c : PyContent),
      (clean_html_body a f c = .error .emptyContent ↔ clean_chars c = [])) ∧
    (∀ (a f : ExtractOracle) (c : PyContent), clean_chars c ≠ [] →
      (clean_html_body a f c = .error .extractionFailed ↔
        (effEmpty (a (clean_chars c)) ∧ effEmptyStrip (f (clean_chars c))))) ∧
    (∀ (a f : ExtractOracle) (c : PyContent) (t : Str), clean_chars c ≠ [] →
      a (clean_chars c) = .ok t → t ≠ [] → clean_html_body a f c = .ok t) ∧
    (∀ (a f : ExtractOracle) (c : PyContent),
      clean_html_body a f c = clean_html_body (purifyOracle a) (purifyOracle f) c) := by
  refine ⟨?_, ?_, ?_, ?_⟩
  · intro a f c
    unfold clean_html_body
    by_cases h : (clean_chars c).isEmpty
    · simp only [if_pos h]
      simp [List.isEmpty_iff.mp h]
    · simp only [if_neg h]
      have h2 : ¬clean_chars c = [] := fun hh => h (by simp [hh])
      constructor
      · intro hh
        split at hh <;> (try split at hh) <;> simp_all
      · intro hh
        exact absurd hh h2
  · intro a f c hne
    have h : ¬(clean_chars c).isEmpty = true := by simp [List.isEmpty_iff, hne]
    unfold clean_html_body
    simp only [if_neg h]
    cases ha : a (clean_chars c) with
    | ok t =>
      by_cases ht : t.isEmpty
      · cases hf : f (clean_chars c) with
        | ok u =>
          by_cases hu : (pyStrip u).isEmpty
          · simp [ht, hu, effEmpty, effEmptyStrip]
          · simp [ht, hu, effEmpty, effEmptyStrip]
        | error e => simp [ht, effEmpty, effEmptyStrip]
      · simp [ht, effEmpty]
    | error e =>
      cases hf : f (clean_chars c) with
      | ok u =>
        by_cases hu : (pyStrip u).isEmpty
        · simp [hu, effEmpty, effEmptyStrip]
        · simp [hu, effEmpty, effEmptyStrip]
      | error e2 => simp [effEmpty, effEmptyStrip]
  · intro a f c t hne ha ht
    have h : ¬(clean_chars c).isEmpty = true := by simp [List.isEmpty_iff, hne]
    have ht2 : ¬t.isEmpty = true := by simp [List.isEmpty_iff, ht]
    unfold clean_html_body
    simp only [if_neg h, ha]
    simp [ht2]
  · intro a f c
    unfold clean_html_body purifyOracle
    cases ha : a (clean_chars c) <;> cases hf : f (clean_chars c) <;>
      simp [ha, hf, pyStrip]

/-- Witness for claim C4 at concrete inputs: with both strategies raising,
non-empty sanitized input produces the extraction-failed error; with the
structured strategy returning text, that text is returned. -/
theorem claim_C4_witness :
    clean_html_body oracleRaise oracleRaise (PyContent.strc ['x']) =
      .error .extractionFailed ∧
    clean_html_body oracleText oracleRaise (PyContent.strc ['x']) = .ok ['t'] :=
  ⟨(claim_C4.2.1 oracleRaise oracleRaise (PyContent.strc ['x']) (by decide)).mpr
      (by constructor <;> decide),
   claim_C4.2.2.1 oracleText oracleRaise (PyContent.strc ['x']) ['t'] (by decide)
      rfl (by decide)⟩

/-- Claim C3 (confirmed): with the default retry budget of 3 attempts,
503-503-200 yields the 200 body; 503 on every attempt raises the
classified error embedding status 503; a first-attempt status outside
{500, 502, 503, 504, 429} is returned immediately with no sleep; a status
inside the set triggers exactly one sleep and a second attempt; exhausting
the budget on retryable statuses returns the last response as-is after two
sleeps; and the retryable set is exactly {500, 502, 503, 504, 429}. -/
theorem claim_C3 :
    (∀ (o : Nat → Attempt) (b1 b2 b3 : Str),
      o 1 = .resp 503 b1 → o 2 = .resp 503 b2 → o 3 = .resp 200 b3 →
      fetch o defaultMaxRetries = .ok b3) ∧
    (∀ (o : Nat → Attempt),
      (∀ i, 1 ≤ i → i ≤ 3 → ∃ b, o i = .resp 503 b) →
      fetch o defaultMaxRetries = .error (.httpError 503)) ∧
    (∀ (o : Nat → Attempt) (s : Nat) (b : Str),
      o 1 = .resp s b → s ∉ retryStatusCodes →
      requestWithRetries o defaultMaxRetries = .response s b 0) ∧
    (∀ (o : Nat → Attempt) (s s2 : Nat) (b b2 : Str),
      o 1 = .resp s b → s ∈ retryStatusCodes →
      o 2 = .resp s2 b2 → s2 ∉ retryStatusCodes →
      requestWithRetries o defaultMaxRetries = .response s2 b2 1) ∧
    (∀ (o : Nat → Attempt) (s1 s2 s3 : Nat) (b1 b2 b3 : Str),
      o 1 = .resp s1 b1 → s1 ∈ retryStatusCodes →
      o 2 = .resp s2 b2 → s2 ∈ retryStatusCodes →
      o 3 = .resp s3 b3 →
      requestWithRetries o defaultMaxRetries = .response s3 b3 2) ∧
    (∀ s : Nat, s ∈ retryStatusCodes ↔
      (s = 500 ∨ s = 502 ∨ s = 503 ∨ s = 504 ∨ s = 429)) := by
  refine ⟨?_, ?_, ?_, ?_, ?_, ?_⟩
  · intro o b1 b2 b3 h1 h2 h3
    simp [fetch, requestWithRetries, defaultMaxRetries, requestLoop, h1, h2, h3,
      retryStatusCodes]
  · intro o h
    obtain ⟨b1, h1⟩ := h 1 (by omega) (by omega)
    obtain ⟨b2, h2⟩ := h 2 (by omega) (by omega)
    obtain ⟨b3, h3⟩ := h 3 (by omega) (by omega)
    simp [fetch, requestWithRetries, defaultMaxRetries, requestLoop, h1, h2, h3,
      retryStatusCodes]
  · intro o s b h1 hs
    simp [requestWithRetries, defaultMaxRetries, requestLoop, h1, hs]
  · intro o s s2 b b2 h1 hs h2 hs2
    simp [requestWithRetries, defaultMaxRetries, requestLoop, h1, hs, h2, hs2]
  · intro o s1 s2 s3 b1 b2 b3 h1 hs1 h2 hs2 h3
    simp [requestWithRetries, defaultMaxRetries, requestLoop, h1, hs1, h2, hs2, h3]
  · intro s
    simp [retryStatusCodes]

/-- Witness for claim C3 at concrete oracles: the 503-503-200 network
returns the 200 body and the all-503 network raises the HTTP 503 error. -/
theorem claim_C3_witness :
    fetch oracleTwo503 defaultMaxRetries = .ok ['B'] ∧
    fetch oracleAll503 defaultMaxRetries = .error (.httpError 503) :=
  ⟨claim_C3.1 oracleTwo503 [] [] ['B'] rfl rfl rfl,
   claim_C3.2.1 oracleAll503 (fun _ _ _ => ⟨[], rfl⟩)⟩

example : strHasInfix ['b', 'c'] ['a', 'b', 'c', 'd'] = true := by decide

example : strHasInfix ['c', 'b'] ['a', 'b', 'c', 'd'] = false := by decide

theorem isRelatedDiv_prune (n : Node) :
    isRelatedDiv (pruneRelated n) = isRelatedDiv n := by
  cases n with
  | textn s => rfl
  | elem t a cs => simp [pruneRelated, isRelatedDiv, isTag, classContains, getAttr]

mutual

theorem pruneRelated_clean (n : Node) (hn : isRelatedDiv n = false) :
    ∀ m ∈ descOrSelf (pruneRelated n), isRelatedDiv m = false := by
  cases n with
  | textn s =>
    intro m hm
    simp only [pruneRelated, descOrSelf, List.mem_singleton] at hm
    subst hm
    rfl
  | elem t a cs =>
    intro m hm
    simp only [pruneRelated, descOrSelf, List.mem_cons] at hm
    cases hm with
    | inl h =>
      subst h
      rw [show Node.elem t a (pruneRelatedList cs) = pruneRelated (.elem t a cs) from rfl,
        isRelatedDiv_prune]
      exact hn
    | inr h => exact pruneRelatedList_clean cs m h

theorem pruneRelatedList_clean (ns : List Node) :
    ∀ m ∈ descOrSelfList (pruneRelatedList ns), isRelatedDiv m = false := by
  cases ns with
  | nil =>
    intro m hm
    simp [pruneRelatedList, descOrSelfList] at hm
  | cons n ns =>
    intro m hm
    by_cases h : isRelatedDiv n = true
    · rw [show pruneRelatedList (n :: ns) =
          (if isRelatedDiv n then [] else [pruneRelated n]) ++ pruneRelatedList ns
          from rfl, if_pos h, List.nil_append] at hm
      exact pruneRelatedList_clean ns m hm
    · rw [show pruneRelatedList (n :: ns) =
          (if isRelatedDiv n then [] else [pruneRelated n]) ++ pruneRelatedList ns
          from rfl, if_neg h, List.singleton_append,
        show descOrSelfList (pruneRelated n :: pruneRelatedList ns) =
          descOrSelf (pruneRelated n) ++ descOrSelfList (pruneRelatedList ns)
          from rfl, List.mem_append] at hm
      cases hm with
      | inl h2 =>
        exact pruneRelated_clean n (Bool.eq_false_iff.mpr h) m h2
      | inr h2 => exact pruneRelatedList_clean ns m h2

end

theorem relatedOfDiv_length (cfg : NosConfig) (d : Node) :
    (relatedOfDiv cfg d).length = (ulAnchors d).countP anchorHrefTruthy := by
  unfold relatedOfDiv
  induction ulAnchors d with
  | nil => simp
  | cons a as ih =>
    rw [List.filterMap_cons, List.countP_cons]
    cases hg : getAttr a (("href").data) with
    | none => simp [anchorHrefTruthy, hg, ih]
    | some h =>
      by_cases ht : pyTruthy h
      · simp [anchorHrefTruthy, hg, ht, ih]
      · simp [anchorHrefTruthy, hg, ht, ih]

/-- Claim C6 (amended; the claim over-counts non-`div` blocks and
anchors outside `ul` lists): provided the document root itself is not a
matched block, `_get_related` removes from the returned body every `div`
element whose class contains `related-content`, and the number of
extracted related entries equals the number of href-bearing anchors that
sit inside `ul` descendants of the matched divs. -/
theorem claim_C6 (cfg : NosConfig) (doc : Node)
    (hroot : isRelatedDiv doc = false) :
    (∀ m ∈ descOrSelf (getRelatedDoc cfg doc).2, isRelatedDiv m = false) ∧
    (getRelatedDoc cfg doc).1.length =
      ((relatedDivs doc).map (fun d => (ulAnchors d).countP anchorHrefTruthy)).sum := by
  constructor
  · exact pruneRelated_clean doc hroot
  · show ((relatedDivs doc).flatMap (relatedOfDiv cfg)).length = _
    rw [List.length_flatMap]
    exact congrArg List.sum
      (List.map_congr_left (fun d _ => relatedOfDiv_length cfg d))

/-- Claim C6 counterexample: a `span` carrying the `related-content` class
survives in the returned body (only `div`s are matched), and a matched div
whose anchor is not inside a `ul` contributes an anchor but no related
entry, so the entry count differs from the anchor count of the matched
blocks. -/
theorem claim_C6_counterexample :
    (descOrSelf (getRelatedDoc cfgEmpty c6SpanDoc).2).any
        (classContains (("related-content").data)) = true ∧
    (getRelatedDoc cfgEmpty c6DivDoc).1.length = 0 ∧
    ((relatedDivs c6DivDoc).map
        (fun d => ((strictDesc d).filter (isTag (("a").data))).length)).sum = 1 :=
  ⟨by decide, by decide, by decide⟩

/-- Witness for claim C6 at a concrete document. -/
theorem claim_C6_witness :
    (∀ m ∈ descOrSelf (getRelatedDoc cfgEmpty c6WitnessDoc).2,
      isRelatedDiv m = false) ∧
    (getRelatedDoc cfgEmpty c6WitnessDoc).1.length =
      ((relatedDivs c6WitnessDoc).map
        (fun d => (ulAnchors d).countP anchorHrefTruthy)).sum :=
  claim_C6 cfgEmpty c6WitnessDoc (by decide)

/-! ## Claim C1: partial-failure semantics of the per-file loops -/

/-- Claim C1 counterexample: in both normalizers an anticipated-looking
file aborts the whole batch. Parsing a two-file list whose first XML file
has a category but no body element crashes `NosDiario.parse` with an
uncaught `AttributeError` (from `None.strip()`), before the second file
is attempted (the outcome trace is empty); likewise an HTML page without
the taxonomy list container crashes `Praza.parse` (from
`[].xpath(".//a")`). -/
theorem claim_C1_counterexample :
    nos_parse ext0 cfgEmpty
      [⟨("a.xml").data, .xml nosBadTree⟩, ⟨("b.xml").data, .emptyFile⟩]
      nosState0 = .crashed nosState0 .attributeError ∧
    praza_parse ext0 pcfgEmpty
      [⟨("c.html").data, .html prazaBadTree⟩, ⟨("d.html").data, .readError⟩]
      prazaState0 = .crashed prazaState0 .attributeError :=
  ⟨by decide, by decide⟩

/-- Claim C1 (amended): provided no per-file step raises an uncaught
exception (which a file lacking a body element or a `DateId`, or a page
lacking the taxonomy container, can cause), each per-file loop attempts
every file, returns normally, and tallies exactly the per-file outcomes:
one trace entry per file, the error counter grown by the number of
article-level failures and the ok counter by the number of documents
written. -/
theorem claim_C1 :
    (∀ (E : Ext) (cfg : NosConfig) (files : List NosInput) (st : NosState),
      (∀ f ∈ files, exceptOk (nos_process_file E cfg f) = true) →
      ∃ st2, nos_parse E cfg files st = .done st2 ∧
        st2.trace.length = st.trace.length + files.length ∧
        st2.articles_error = st.articles_error +
          files.countP (fun f => nosIsErrOutcome (nos_process_file E cfg f)) ∧
        st2.articles_ok = st.articles_ok +
          files.countP (fun f => nosIsWroteOutcome (nos_process_file E cfg f))) ∧
    (∀ (E : Ext) (cfg : PrazaConfig) (files : List PrazaInput) (st : PrazaState),
      (∀ f ∈ files, exceptOk (praza_process_file E cfg f) = true) →
      ∃ st2, praza_parse E cfg files st = .done st2 ∧
        st2.trace.length = st.trace.length + files.length ∧
        st2.articles_error = st.articles_error +
          files.countP (fun f => prazaIsErrOutcome (praza_process_file E cfg f)) ∧
        st2.articles_ok = st.articles_ok +
          files.countP (fun f => prazaIsWroteOutcome (praza_process_file E cfg f))) := by
  constructor
  · intro E cfg files
    induction files with
    | nil =>
      intro st _
      exact ⟨st, rfl, by simp, by simp, by simp⟩
    | cons f fs ih =>
      intro st h
      have hf := h f (by simp)
      cases hpf : nos_process_file E cfg f with
      | error e => rw [hpf] at hf; simp [exceptOk] at hf
      | ok pr =>
        obtain ⟨st2, hdone, hlen, herr, hok⟩ :=
          ih _ (fun g hg => h g (by simp [hg]))
        refine ⟨st2, ?_, ?_, ?_, ?_⟩
        · simpa [nos_parse, hpf] using hdone
        · simp only [List.countP_cons] at *
          simp at hlen
          simp [hlen]
          omega
        · rw [herr]
          simp [List.countP_cons, hpf, nosIsErrOutcome]
          rcases pr with ⟨o, w⟩
          by_cases ho : o = NosOutcome.articleError <;> simp [ho] <;> omega
        · rw [hok]
          simp [List.countP_cons, hpf, nosIsWroteOutcome]
          rcases pr with ⟨o, w⟩
          by_cases ho : o = NosOutcome.wrote <;> simp [ho] <;> omega
  · intro E cfg files
    induction files with
    | nil =>
      intro st _
      exact ⟨st, rfl, by simp, by simp, by simp⟩
    | cons f fs ih =>
      intro st h
      have hf := h f (by simp)
      cases hpf : praza_process_file E cfg f with
      | error e => rw [hpf] at hf; simp [exceptOk] at hf
      | ok pr =>
        obtain ⟨st2, hdone, hlen, herr, hok⟩ :=
          ih _ (fun g hg => h g (by simp [hg]))
        refine ⟨st2, ?_, ?_, ?_, ?_⟩
        · simpa [praza_parse, hpf] using hdone
        · simp only [List.countP_cons] at *
          simp at hlen
          simp [hlen]
          omega
        · rw [herr]
          simp [List.countP_cons, hpf, prazaIsErrOutcome]
          rcases pr with ⟨o, w⟩
          by_cases ho : o = PrazaOutcome.errored <;> simp [ho] <;> omega
        · rw [hok]
          simp [List.countP_cons, hpf, prazaIsWroteOutcome]
          rcases pr with ⟨o, w⟩
          by_cases ho : o = PrazaOutcome.wrote <;> simp [ho] <;> omega

/-- Witness for claim C1 at concrete one-file batches (an empty XML file;
an unreadable HTML file). -/
theorem claim_C1_witness :
    (∃ st2, nos_parse ext0 cfgEmpty [⟨("e.xml").data, .emptyFile⟩] nosState0 =
        .done st2 ∧
      st2.trace.length = nosState0.trace.length + 1 ∧
      st2.articles_error = nosState0.articles_error +
        ([(⟨("e.xml").data, .emptyFile⟩ : NosInput)].countP
          (fun f => nosIsErrOutcome (nos_process_file ext0 cfgEmpty f))) ∧
      st2.articles_ok = nosState0.articles_ok +
        ([(⟨("e.xml").data, .emptyFile⟩ : NosInput)].countP
          (fun f => nosIsWroteOutcome (nos_process_file ext0 cfgEmpty f)))) ∧
    (∃ st2, praza_parse ext0 pcfgEmpty [⟨("f.html").data, .readError⟩]
        prazaState0 = .done st2 ∧
      st2.trace.length = prazaState0.trace.length + 1 ∧
      st2.articles_error = prazaState0.articles_error +
        ([(⟨("f.html").data, .readError⟩ : PrazaInput)].countP
          (fun f => prazaIsErrOutcome (praza_process_file ext0 pcfgEmpty f))) ∧
      st2.articles_ok = prazaState0.articles_ok +
        ([(⟨("f.html").data, .readError⟩ : PrazaInput)].countP
          (fun f => prazaIsWroteOutcome (praza_process_file ext0 pcfgEmpty f)))) :=
  ⟨claim_C1.1 ext0 cfgEmpty [⟨("e.xml").data, .emptyFile⟩] nosState0 (by decide),
   claim_C1.2 ext0 pcfgEmpty [⟨("f.html").data, .readError⟩] prazaState0
     (by decide)⟩

/-! ## Claim C2: empty and malformed XML files -/

/-- Claim C2 counterexample: an XML syntax error does not increment the
error counter — the `except ET.ParseError` handler only logs and
continues, so after parsing one malformed file every counter is still
zero (the claim asserts an increment). -/
theorem claim_C2_counterexample :
    nos_parse ext0 cfgEmpty [⟨("f.xml").data, .malformed⟩] nosState0 =
      .done { nosState0 with trace := [.skippedParseError] } ∧
    ({ nosState0 with trace := [.skippedParseError] } : NosState).articles_error
      = 0 :=
  ⟨by decide, rfl⟩

/-- Claim C2 (amended): a zero-length XML file is skipped with no error
counted and no document written; a file with an XML syntax error is
likewise skipped with no document written, and — contrary to the claim —
no error counted either (only article-level failures touch the error
counter). -/
theorem claim_C2 :
    ∀ (E : Ext) (cfg : NosConfig) (st : NosState) (name : Str),
    nos_process_file E cfg ⟨name, .emptyFile⟩ = .ok (.skippedEmpty, none) ∧
    nos_process_file E cfg ⟨name, .malformed⟩ =
      .ok (.skippedParseError, none) ∧
    nos_parse E cfg [⟨name, .emptyFile⟩] st =
      .done { st with trace := st.trace ++ [.skippedEmpty] } ∧
    nos_parse E cfg [⟨name, .malformed⟩] st =
      .done { st with trace := st.trace ++ [.skippedParseError] } := by
  intro E cfg st name
  refine ⟨rfl, rfl, ?_, ?_⟩ <;> simp [nos_parse, nos_process_file]

/-! ## Claim C7: pages without an article-body container -/

/-- Claim C7 counterexample: a page with no article-body container but
also no taxonomy list container produces no document and writes nothing,
yet the error counter is NOT incremented — the loop aborts with an
uncaught `AttributeError` instead. -/
theorem claim_C7_counterexample :
    praza_parse ext0 pcfgEmpty [⟨("g.html").data, .html prazaBadTree⟩]
      prazaState0 = .crashed prazaState0 .attributeError ∧
    prazaState0.articles_error = 0 :=
  ⟨by decide, rfl⟩

/-- Claim C7 (amended): provided the page's taxonomy list container is
present and its related-links region is well formed (so that the earlier
extraction steps do not raise), a page with no `article-body` div yields
no document, no write, and exactly one error-counter increment. -/
theorem claim_C7 (E : Ext) (cfg : PrazaConfig) (tree : Node) (name : Str)
    (st : PrazaState)
    (hul : (articleUls tree).isEmpty = false)
    (hrel : exceptOk (praza_get_related E cfg (refsUls tree)) = true)
    (hbody : (articleBodyDivs tree).isEmpty = true) :
    praza_process_file E cfg ⟨name, .html tree⟩ = .ok (.errored, none) ∧
    praza_parse E cfg [⟨name, .html tree⟩] st =
      .done { st with
        articles_error := st.articles_error + 1,
        trace := st.trace ++ [.errored] } := by
  have hb : articleBodyDivs tree = [] := List.isEmpty_iff.mp hbody
  have hpa : praza_parse_article E cfg tree = .ok none := by
    unfold praza_parse_article
    cases hu : articleUls tree with
    | nil => rw [hu] at hul; simp at hul
    | cons c rest =>
      cases hr : praza_get_related E cfg (refsUls tree) with
      | error e => rw [hr] at hrel; simp [exceptOk] at hrel
      | ok rel => simp [praza_get_categories, praza_get_htmlbody, hb]
  constructor
  · simp [praza_process_file, hpa]
  · simp [praza_parse, praza_process_file, hpa]

/-- Witness for claim C7 at a concrete page. -/
theorem claim_C7_witness :
    praza_process_file ext0 pcfgEmpty ⟨("w.html").data, .html c7WitnessTree⟩ =
      .ok (.errored, none) ∧
    praza_parse ext0 pcfgEmpty [⟨("w.html").data, .html c7WitnessTree⟩]
      prazaState0 =
      .done { prazaState0 with
        articles_error := prazaState0.articles_error + 1,
        trace := prazaState0.trace ++ [.errored] } :=
  claim_C7 ext0 pcfgEmpty c7WitnessTree (("w.html").data) prazaState0
    (by decide) (by decide) (by decide)

/-! ## Claim C9: pages with an anchor-free taxonomy container -/

theorem taxStep_skip (acc : List Str × Option Str × Option Str) (l : Node)
    (h : nonTaxonomyAnchor l = true) : taxStep acc l = acc := by
  unfold nonTaxonomyAnchor at h
  unfold taxStep
  simp only [Bool.not_eq_eq_eq_not, Bool.not_true, Bool.or_eq_false_iff] at h
  simp [h.1.1, h.1.2, h.2]

theorem foldl_taxStep (links : List Node)
    (h : links.all nonTaxonomyAnchor = true)
    (acc : List Str × Option Str × Option Str) :
    links.foldl taxStep acc = acc := by
  induction links generalizing acc with
  | nil => rfl
  | cons l ls ih =>
    rw [List.all_cons, Bool.and_eq_true] at h
    rw [List.foldl_cons, taxStep_skip acc l h.1]
    exact ih h.2 acc

/-- Claim C9 counterexample: a page with NO taxonomy list container at
all does not produce a document with empty taxonomy strings — the loop
crashes with an uncaught `AttributeError` and nothing is written, even
though the page has an article body and the text reduction succeeds. -/
theorem claim_C9_counterexample :
    praza_parse extBody pcfgEmpty
      [⟨("h.html").data, .html (Node.elem (("html").data) []
        [.elem (("div").data) [((("class").data), (("article-body").data))]
          [.textn (("x").data)]])⟩] prazaState0 =
      .crashed prazaState0 .attributeError :=
  by decide

/-- Claim C9 (amended; the no-container case raises instead): for a page
whose taxonomy list container is present but holds no anchor of class
`area`, `topic` or `local-edition`, and which otherwise yields a document
(well-formed related region, an article-body div, successful text
reduction), the produced document's taxonomy is the one-element category
list holding the empty string, with empty-string (not list) topics and
local-edition fields. -/
theorem claim_C9 (E : Ext) (cfg : PrazaConfig) (tree : Node) (name : Str)
    (hul : (articleUls tree).isEmpty = false)
    (hanch : (containerAnchors ((articleUls tree).headD (.textn []))).all
      nonTaxonomyAnchor = true)
    (hrel : exceptOk (praza_get_related E cfg (refsUls tree)) = true)
    (hbodyDiv : (articleBodyDivs tree).isEmpty = false)
    (hbodyText : (praza_get_bodytext E tree).isSome = true) :
    ∃ news, praza_parse_article E cfg tree = .ok (some news) ∧
      lookupField news (("taxonomy").data) = some (JVal.jobj
        [(("categories").data, JVal.jarr [JVal.jstr []]),
         (("topics").data, JVal.jstr []),
         (("local-edition").data, JVal.jstr [])]) ∧
      prazaIsWroteOutcome (praza_process_file E cfg ⟨name, .html tree⟩) =
        true := by
  cases hu : articleUls tree with
  | nil => rw [hu] at hul; simp at hul
  | cons c rest =>
    rw [hu] at hanch
    simp only [List.headD_cons] at hanch
    have hcats : praza_get_categories (articleUls tree) = .ok ([], [], []) := by
      rw [hu]
      simp only [praza_get_categories]
      rw [show containerAnchors c = (strictDesc c).filter (isTag (("a").data))
        from rfl] at hanch
      simp only [foldl_taxStep _ hanch]
      rfl
    cases hr : praza_get_related E cfg (refsUls tree) with
    | error e => rw [hr] at hrel; simp [exceptOk] at hrel
    | ok rel =>
      cases hbd : articleBodyDivs tree with
      | nil => rw [hbd] at hbodyDiv; simp at hbodyDiv
      | cons d ds =>
        cases hbt : praza_get_bodytext E tree with
        | none => rw [hbt] at hbodyText; simp at hbodyText
        | some body =>
          have hhb : praza_get_htmlbody tree = some (serializeNode d) := by
            unfold praza_get_htmlbody
            rw [hbd]
            rfl
          have hpa : praza_parse_article E cfg tree = .ok (some
              [(("headline").data, JVal.jstr (praza_get_title tree)),
               (("abstract").data, optStrJ (praza_get_abstract tree)),
               (("taxonomy").data, JVal.jobj
                 [(("categories").data, JVal.jarr [JVal.jstr []]),
                  (("topics").data, JVal.jstr []),
                  (("local-edition").data, JVal.jstr [])]),
               (("body_html").data, JVal.jstr (serializeNode d)),
               (("body").data, JVal.jstr body),
               (("related").data, JVal.jarr rel),
               (("images").data, JVal.jarr (praza_get_images tree))]) := by
            unfold praza_parse_article
            rw [hcats, hr, hhb, hbt]
            rfl
          refine ⟨_, hpa, ?_, ?_⟩
          · simp [lookupField, List.find?]
          · simp [prazaIsWroteOutcome, praza_process_file, hpa]

/-- Witness for claim C9 at a concrete page. -/
theorem claim_C9_witness :
    ∃ news, praza_parse_article extBody pcfgEmpty c9WitnessTree =
        .ok (some news) ∧
      lookupField news (("taxonomy").data) = some (JVal.jobj
        [(("categories").data, JVal.jarr [JVal.jstr []]),
         (("topics").data, JVal.jstr []),
         (("local-edition").data, JVal.jstr [])]) ∧
      prazaIsWroteOutcome (praza_process_file extBody pcfgEmpty
        ⟨("i.html").data, .html c9WitnessTree⟩) = true :=
  claim_C9 extBody pcfgEmpty c9WitnessTree (("i.html").data)
    (by decide) (by decide) (by decide) (by decide) (by decide)

/-! ## Claim C10: invalid download categories -/

/-- Claim C10 (confirmed): an unknown category name makes
`download_from_category` raise `ValueError` immediately: the state (all
three counters) is returned untouched, and the outcome is independent of
every network, filesystem and parser oracle — no request is even
attempted. -/
theorem claim_C10 (D D2 : DlExt) (E E2 : Ext) (cfg cfg2 : PrazaConfig)
    (st : PrazaState) (category : Str)
    (h : (CATEGORIES.map Prod.fst).contains category = false) :
    praza_download_from_category D E cfg st category = .invalidCategory st ∧
    praza_download_from_category D E cfg st category =
      praza_download_from_category D2 E2 cfg2 st category := by
  constructor
  · unfold praza_download_from_category
    rw [h]
    simp
  · unfold praza_download_from_category
    rw [h]
    simp

/-- Witness for claim C10 at the concrete category name `Foo`. -/
theorem claim_C10_witness :
    praza_download_from_category dlExt0 ext0 pcfgEmpty prazaState0
      (("Foo").data) = .invalidCategory prazaState0 :=
  (claim_C10 dlExt0 dlExt0 ext0 ext0 pcfgEmpty pcfgEmpty prazaState0
    (("Foo").data) (by decide)).1

example :
    jloads (jdumps (.jobj [(("a").data, .jnull),
      (("b").data, .jarr [.jstr (("x\ny").data), .jobj []])])) =
    some (.jobj [(("a").data, .jnull),
      (("b").data, .jarr [.jstr (("x\ny").data), .jobj []])]) := by
  rfl

example :
    jloads (jdumps (.jstr ('"' :: '\\' :: Char.ofNat 1 :: ("é").data))) =
    some (.jstr ('"' :: '\\' :: Char.ofNat 1 :: ("é").data)) := by
  rfl

theorem hexVal_hexDigitChar : ∀ d, d < 16 → hexVal (hexDigitChar d) = some d := by
  decide

set_option maxHeartbeats 1000000 in
theorem parseStrBody_escStr (cs : Str) : ∀ rest : Str,
    parseStrBody (escStr cs ++ '"' :: rest) = some (cs, rest) := by
  induction cs with
  | nil => intro rest; rfl
  | cons c cs ih =>
    intro rest
    rw [show escStr (c :: cs) = escChar c ++ escStr cs from rfl,
      List.append_assoc]
    by_cases h1 : c = '"'
    · subst h1
      rw [show escChar '"' = ['\\', '"'] from rfl,
        show (['\\', '"'] : Str) ++ (escStr cs ++ '"' :: rest) =
          '\\' :: '"' :: (escStr cs ++ '"' :: rest) from rfl,
        show parseStrBody ('\\' :: '"' :: (escStr cs ++ '"' :: rest)) =
          (parseStrBody (escStr cs ++ '"' :: rest)).map
            (fun p => ('"' :: p.1, p.2)) from rfl, ih]
      rfl
    by_cases h2 : c = '\\'
    · subst h2
      rw [show escChar '\\' = ['\\', '\\'] from rfl,
        show (['\\', '\\'] : Str) ++ (escStr cs ++ '"' :: rest) =
          '\\' :: '\\' :: (escStr cs ++ '"' :: rest) from rfl,
        show parseStrBody ('\\' :: '\\' :: (escStr cs ++ '"' :: rest)) =
          (parseStrBody (escStr cs ++ '"' :: rest)).map
            (fun p => ('\\' :: p.1, p.2)) from rfl, ih]
      rfl
    by_cases h3 : c = '\n'
    · subst h3
      rw [show escChar '\n' = ['\\', 'n'] from rfl,
        show (['\\', 'n'] : Str) ++ (escStr cs ++ '"' :: rest) =
          '\\' :: 'n' :: (escStr cs ++ '"' :: rest) from rfl,
        show parseStrBody ('\\' :: 'n' :: (escStr cs ++ '"' :: rest)) =
          (parseStrBody (escStr cs ++ '"' :: rest)).map
            (fun p => ('\n' :: p.1, p.2)) from rfl, ih]
      rfl
    by_cases h4 : c = '\t'
    · subst h4
      rw [show escChar '\t' = ['\\', 't'] from rfl,
        show (['\\', 't'] : Str) ++ (escStr cs ++ '"' :: rest) =
          '\\' :: 't' :: (escStr cs ++ '"' :: rest) from rfl,
        show parseStrBody ('\\' :: 't' :: (escStr cs ++ '"' :: rest)) =
          (parseStrBody (escStr cs ++ '"' :: rest)).map
            (fun p => ('\t' :: p.1, p.2)) from rfl, ih]
      rfl
    by_cases h5 : c = '\r'
    · subst h5
      rw [show escChar '\r' = ['\\', 'r'] from rfl,
        show (['\\', 'r'] : Str) ++ (escStr cs ++ '"' :: rest) =
          '\\' :: 'r' :: (escStr cs ++ '"' :: rest) from rfl,
        show parseStrBody ('\\' :: 'r' :: (escStr cs ++ '"' :: rest)) =
          (parseStrBody (escStr cs ++ '"' :: rest)).map
            (fun p => ('\r' :: p.1, p.2)) from rfl, ih]
      rfl
    by_cases h6 : c.toNat = 8
    · have hc : c = Char.ofNat 8 := by rw [← h6, Char.ofNat_toNat]
      subst hc
      rw [show escChar (Char.ofNat 8) = ['\\', 'b'] from rfl,
        show (['\\', 'b'] : Str) ++ (escStr cs ++ '"' :: rest) =
          '\\' :: 'b' :: (escStr cs ++ '"' :: rest) from rfl,
        show parseStrBody ('\\' :: 'b' :: (escStr cs ++ '"' :: rest)) =
          (parseStrBody (escStr cs ++ '"' :: rest)).map
            (fun p => (Char.ofNat 8 :: p.1, p.2)) from rfl, ih]
      rfl
    by_cases h7 : c.toNat = 12
    · have hc : c = Char.ofNat 12 := by rw [← h7, Char.ofNat_toNat]
      subst hc
      rw [show escChar (Char.ofNat 12) = ['\\', 'f'] from rfl,
        show (['\\', 'f'] : Str) ++ (escStr cs ++ '"' :: rest) =
          '\\' :: 'f' :: (escStr cs ++ '"' :: rest) from rfl,
        show parseStrBody ('\\' :: 'f' :: (escStr cs ++ '"' :: rest)) =
          (parseStrBody (escStr cs ++ '"' :: rest)).map
            (fun p => (Char.ofNat 12 :: p.1, p.2)) from rfl, ih]
      rfl
    by_cases h8 : c.toNat < 32
    · rw [show escChar c =
          ['\\', 'u', '0', '0', hexDigitChar (c.toNat / 16),
            hexDigitChar (c.toNat % 16)] by
        simp [escChar, h1, h2, h3, h4, h5, h6, h7, h8]]
      have hhi := hexVal_hexDigitChar (c.toNat / 16) (by omega)
      have hlo := hexVal_hexDigitChar (c.toNat % 16) (by omega)
      have h0 : hexVal '0' = some 0 := by decide
      rw [show (['\\', 'u', '0', '0', hexDigitChar (c.toNat / 16),
          hexDigitChar (c.toNat % 16)] : Str) ++ (escStr cs ++ '"' :: rest) =
        '\\' :: 'u' :: '0' :: '0' :: hexDigitChar (c.toNat / 16) ::
          hexDigitChar (c.toNat % 16) :: (escStr cs ++ '"' :: rest) from rfl]
      rw [show parseStrBody ('\\' :: 'u' :: '0' :: '0' ::
          hexDigitChar (c.toNat / 16) :: hexDigitChar (c.toNat % 16) ::
          (escStr cs ++ '"' :: rest)) =
        (match hexVal '0', hexVal '0', hexVal (hexDigitChar (c.toNat / 16)),
            hexVal (hexDigitChar (c.toNat % 16)) with
         | some a, some b, some c2, some d =>
           (parseStrBody (escStr cs ++ '"' :: rest)).map (fun p =>
             (Char.ofNat (((a * 16 + b) * 16 + c2) * 16 + d) :: p.1, p.2))
         | _, _, _, _ => none) from rfl]
      rw [h0, hhi, hlo, ih]
      have harith : ((0 * 16 + 0) * 16 + c.toNat / 16) * 16 + c.toNat % 16 =
          c.toNat := by omega
      simp [harith, Char.ofNat_toNat]
      rw [show c.toNat / 16 * 16 + c.toNat % 16 = c.toNat by omega,
        Char.ofNat_toNat]
    · rw [show escChar c = [c] by simp [escChar, h1, h2, h3, h4, h5, h6, h7, h8]]
      rw [show ([c] : Str) ++ (escStr cs ++ '"' :: rest) =
        c :: (escStr cs ++ '"' :: rest) from rfl]
      rw [parseStrBody.eq_def]
      split
      · rename_i heq; cases heq
      · rename_i heq
        exfalso
        rw [List.cons.injEq] at heq
        exact h1 heq.1
      · rename_i heq
        exfalso
        rw [List.cons.injEq] at heq
        exact h2 heq.1
      · rename_i c2 r heq
        rw [List.cons.injEq] at heq
        obtain ⟨hc2, hr⟩ := heq
        subst hc2
        rw [if_neg (by omega), ← hr, ih]
        rfl

theorem skipWs_cons_false {c : Char} {x : Str} (h : isJsonWs c = false) :
    skipWs (c :: x) = c :: x := by
  simp [skipWs, List.dropWhile_cons, h]

theorem skipWs_ws_append (pre : Str) (h : ∀ c ∈ pre, isJsonWs c = true)
    (x : Str) : skipWs (pre ++ x) = skipWs x := by
  induction pre with
  | nil => rfl
  | cons c p ih =>
    rw [List.cons_append, skipWs, List.dropWhile_cons,
      if_pos (h c (by simp))]
    exact ih (fun d hd => h d (by simp [hd]))

theorem nlIndent_ws (k : Nat) : ∀ c ∈ nlIndent k, isJsonWs c = true := by
  intro c hc
  rw [nlIndent, List.mem_cons] at hc
  cases hc with
  | inl h => subst h; decide
  | inr h =>
    rw [List.eq_of_mem_replicate h]
    decide

theorem skipWs_nlIndent (k : Nat) (x : Str) :
    skipWs (nlIndent k ++ x) = skipWs x :=
  skipWs_ws_append (nlIndent k) (nlIndent_ws k) x

theorem parseVal_wsPre (f : Nat) (pre : Str)
    (h : ∀ c ∈ pre, isJsonWs c = true) (x : Str) :
    parseVal (f + 1) (pre ++ x) = parseVal (f + 1) x := by
  simp only [parseVal]
  rw [skipWs_ws_append pre h x]

/-- Every rendered value starts with a non-whitespace character that is
neither a closing bracket nor a closing brace. -/
theorem jdumpVal_head (k : Nat) (v : JVal) :
    ∃ c t, jdumpVal k v = c :: t ∧ isJsonWs c = false ∧ c ≠ ']' ∧
      c ≠ rbrace := by
  cases v with
  | jnull => exact ⟨'n', _, rfl, by decide, by decide, by decide⟩
  | jstr s => exact ⟨'"', _, rfl, by decide, by decide, by decide⟩
  | jarr items =>
    cases items with
    | nil => exact ⟨'[', _, rfl, by decide, by decide, by decide⟩
    | cons v vs => exact ⟨'[', _, rfl, by decide, by decide, by decide⟩
  | jobj fields =>
    cases fields with
    | nil => exact ⟨lbrace, _, rfl, by decide, by decide, by decide⟩
    | cons f fs => exact ⟨lbrace, _, rfl, by decide, by decide, by decide⟩

theorem jsize_pos : ∀ v : JVal, 1 ≤ jsize v := by
  intro v
  cases v <;> simp [jsize]

theorem parseVal_step (f : Nat) (s : Str) :
    parseVal (f + 1) s =
      (match skipWs s with
       | [] => none
       | c :: r =>
         if c = 'n' then
           match r with
           | 'u' :: 'l' :: 'l' :: r2 => some (.jnull, r2)
           | _ => none
         else if c = '"' then
           (parseStrBody r).map (fun p => (JVal.jstr p.1, p.2))
         else if c = '[' then
           match skipWs r with
           | [] => none
           | c2 :: r2 =>
             if c2 = ']' then some (.jarr [], r2)
             else
               match parseVal f (c2 :: r2) with
               | none => none
               | some (v, r3) =>
                 match parseArrTail f r3 with
                 | none => none
                 | some (vs, r4) => some (.jarr (v :: vs), r4)
         else if c = lbrace then
           match skipWs r with
           | [] => none
           | c2 :: r2 =>
             if c2 = rbrace then some (.jobj [], r2)
             else
               match parseField f (c2 :: r2) with
               | none => none
               | some (kv, r3) =>
                 match parseObjTail f r3 with
                 | none => none
                 | some (kvs, r4) => some (.jobj (kv :: kvs), r4)
         else none) := rfl

theorem parseField_step (f : Nat) (s : Str) :
    parseField (f + 1) s =
      (match skipWs s with
       | '"' :: r =>
         (match parseStrBody r with
          | none => none
          | some (key, r2) =>
            match skipWs r2 with
            | ':' :: r3 =>
              (match parseVal f r3 with
               | none => none
               | some (v, r4) => some ((key, v), r4))
            | _ => none)
       | _ => none) := rfl

theorem parseArrTail_step (f : Nat) (s : Str) :
    parseArrTail (f + 1) s =
      (match skipWs s with
       | ']' :: r => some ([], r)
       | ',' :: r =>
         (match parseVal f r with
          | none => none
          | some (v, r2) =>
            match parseArrTail f r2 with
            | none => none
            | some (vs, r3) => some (v :: vs, r3))
       | _ => none) := rfl

theorem parseObjTail_step (f : Nat) (s : Str) :
    parseObjTail (f + 1) s =
      (match skipWs s with
       | [] => none
       | c :: r =>
         if c = rbrace then some ([], r)
         else if c = ',' then
           match parseField f r with
           | none => none
           | some (kv, r2) =>
             match parseObjTail f r2 with
             | none => none
             | some (kvs, r3) => some (kv :: kvs, r3)
         else none) := rfl

theorem parseField_wsPre (f : Nat) (pre : Str)
    (h : ∀ c ∈ pre, isJsonWs c = true) (x : Str) :
    parseField (f + 1) (pre ++ x) = parseField (f + 1) x := by
  rw [parseField_step, parseField_step, skipWs_ws_append pre h x]

mutual

theorem rt_val : ∀ (v : JVal) (fuel k : Nat) (rest : Str), jsize v < fuel →
    parseVal fuel (jdumpVal k v ++ rest) = some (v, rest)
  | v, 0, _, _, h => ((Nat.not_lt_zero (jsize v)) h).elim
  | .jnull, fuel + 1, k, rest, _ => rfl
  | .jstr s, fuel + 1, k, rest, _ => by
    rw [show jdumpVal k (.jstr s) ++ rest = '"' :: (escStr s ++ ('"' :: rest))
      by simp [jdumpVal]]
    rw [show parseVal (fuel + 1) ('"' :: (escStr s ++ ('"' :: rest))) =
      (parseStrBody (escStr s ++ ('"' :: rest))).map
        (fun p => (JVal.jstr p.1, p.2)) from rfl]
    rw [parseStrBody_escStr]
    rfl
  | .jarr [], fuel + 1, k, rest, _ => rfl
  | .jarr (v :: vs), fuel + 1, k, rest, h => by
    simp only [jsize, jsizeL] at h
    have hv1 : jsize v < fuel := by omega
    have hvs : jsizeL vs < fuel := by omega
    obtain ⟨c2, t2, hv, hws2, hbr, _⟩ := jdumpVal_head (k + 1) v
    rw [show jdumpVal k (.jarr (v :: vs)) ++ rest =
      '[' :: (nlIndent (k + 1) ++ (jdumpVal (k + 1) v ++
        (jdumpArrTail k vs ++ rest))) by simp [jdumpVal]]
    rw [parseVal_step]
    rw [skipWs_cons_false (by decide)]
    show (match skipWs (nlIndent (k + 1) ++ (jdumpVal (k + 1) v ++
        (jdumpArrTail k vs ++ rest))) with
      | [] => none
      | c2 :: r2 =>
        if c2 = ']' then some (JVal.jarr [], r2)
        else
          match parseVal fuel (c2 :: r2) with
          | none => none
          | some (v2, r3) =>
            match parseArrTail fuel r3 with
            | none => none
            | some (vs2, r4) => some (JVal.jarr (v2 :: vs2), r4)) =
      some (JVal.jarr (v :: vs), rest)
    rw [skipWs_nlIndent, hv, List.cons_append, skipWs_cons_false hws2]
    show (if c2 = ']' then
        some (JVal.jarr [], t2 ++ (jdumpArrTail k vs ++ rest))
      else
        match parseVal fuel (c2 :: (t2 ++ (jdumpArrTail k vs ++ rest))) with
        | none => none
        | some (v2, r3) =>
          match parseArrTail fuel r3 with
          | none => none
          | some (vs2, r4) => some (JVal.jarr (v2 :: vs2), r4)) =
      some (JVal.jarr (v :: vs), rest)
    rw [if_neg hbr]
    rw [show c2 :: (t2 ++ (jdumpArrTail k vs ++ rest)) =
      (c2 :: t2) ++ (jdumpArrTail k vs ++ rest) from rfl, ← hv]
    rw [rt_val v fuel (k + 1) (jdumpArrTail k vs ++ rest) hv1]
    show (match parseArrTail fuel (jdumpArrTail k vs ++ rest) with
      | none => none
      | some (vs2, r4) => some (JVal.jarr (v :: vs2), r4)) =
      some (JVal.jarr (v :: vs), rest)
    rw [rt_arrTail vs fuel k rest hvs]
  | .jobj [], fuel + 1, k, rest, _ => rfl
  | .jobj ((key, w) :: fs), fuel + 1, k, rest, h => by
    simp only [jsize, jsizeF] at h
    have hw1 : jsize w + 1 < fuel := by omega
    have hfs : jsizeF fs < fuel := by omega
    rw [show jdumpVal k (.jobj ((key, w) :: fs)) ++ rest =
      lbrace :: (nlIndent (k + 1) ++ (jdumpKey key ++ (jdumpVal (k + 1) w ++
        (jdumpObjTail k fs ++ rest)))) by simp [jdumpVal]]
    rw [parseVal_step]
    rw [skipWs_cons_false (by decide)]
    show (match skipWs (nlIndent (k + 1) ++ (jdumpKey key ++
        (jdumpVal (k + 1) w ++ (jdumpObjTail k fs ++ rest)))) with
      | [] => none
      | c2 :: r2 =>
        if c2 = rbrace then some (JVal.jobj [], r2)
        else
          match parseField fuel (c2 :: r2) with
          | none => none
          | some (kv, r3) =>
            match parseObjTail fuel r3 with
            | none => none
            | some (kvs, r4) => some (JVal.jobj (kv :: kvs), r4)) =
      some (JVal.jobj ((key, w) :: fs), rest)
    rw [skipWs_nlIndent]
    rw [show jdumpKey key ++ (jdumpVal (k + 1) w ++ (jdumpObjTail k fs ++ rest))
      = '"' :: ((escStr key ++ ['"', ':', ' ']) ++ (jdumpVal (k + 1) w ++
        (jdumpObjTail k fs ++ rest))) by simp [jdumpKey]]
    rw [skipWs_cons_false (by decide)]
    show (match parseField fuel ('"' :: ((escStr key ++ ['"', ':', ' ']) ++
        (jdumpVal (k + 1) w ++ (jdumpObjTail k fs ++ rest)))) with
      | none => none
      | some (kv, r3) =>
        match parseObjTail fuel r3 with
        | none => none
        | some (kvs, r4) => some (JVal.jobj (kv :: kvs), r4)) =
      some (JVal.jobj ((key, w) :: fs), rest)
    rw [show ('"' : Char) :: ((escStr key ++ ['"', ':', ' ']) ++
        (jdumpVal (k + 1) w ++ (jdumpObjTail k fs ++ rest))) =
      jdumpKey key ++ (jdumpVal (k + 1) w ++ (jdumpObjTail k fs ++ rest)) by
        simp [jdumpKey]]
    rw [rt_field key w fuel (k + 1) (jdumpObjTail k fs ++ rest) hw1]
    show (match parseObjTail fuel (jdumpObjTail k fs ++ rest) with
      | none => none
      | some (kvs, r4) => some (JVal.jobj ((key, w) :: kvs), r4)) =
      some (JVal.jobj ((key, w) :: fs), rest)
    rw [rt_objTail fs fuel k rest hfs]

theorem rt_field : ∀ (key : Str) (v : JVal) (fuel k : Nat) (rest : Str),
    jsize v + 1 < fuel →
    parseField fuel (jdumpKey key ++ (jdumpVal k v ++ rest)) =
      some ((key, v), rest)
  | _, v, 0, _, _, h => ((Nat.not_lt_zero (jsize v + 1)) h).elim
  | key, v, fuel + 1, k, rest, h => by
    have hv1 : jsize v < fuel := by omega
    rw [show jdumpKey key ++ (jdumpVal k v ++ rest) =
      '"' :: (escStr key ++ ('"' :: ':' :: ' ' :: (jdumpVal k v ++ rest))) by
        simp [jdumpKey]]
    rw [parseField_step]
    rw [skipWs_cons_false (by decide)]
    show (match parseStrBody (escStr key ++
        ('"' :: ':' :: ' ' :: (jdumpVal k v ++ rest))) with
      | none => none
      | some (key2, r2) =>
        match skipWs r2 with
        | ':' :: r3 =>
          (match parseVal fuel r3 with
           | none => none
           | some (v2, r4) => some ((key2, v2), r4))
        | _ => none) = some ((key, v), rest)
    rw [parseStrBody_escStr]
    show (match parseVal fuel (' ' :: (jdumpVal k v ++ rest)) with
      | none => none
      | some (v2, r4) => some ((key, v2), r4)) = some ((key, v), rest)
    obtain ⟨f2, rfl⟩ : ∃ f2, fuel = f2 + 1 :=
      ⟨fuel - 1, by have := jsize_pos v; omega⟩
    rw [show (' ' :: (jdumpVal k v ++ rest) : Str) =
      [' '] ++ (jdumpVal k v ++ rest) from rfl]
    rw [parseVal_wsPre f2 [' '] (by decide) _]
    rw [rt_val v (f2 + 1) k rest hv1]

theorem rt_arrTail : ∀ (vs : List JVal) (fuel k : Nat) (rest : Str),
    jsizeL vs < fuel →
    parseArrTail fuel (jdumpArrTail k vs ++ rest) = some (vs, rest)
  | vs, 0, _, _, h => ((Nat.not_lt_zero (jsizeL vs)) h).elim
  | [], fuel + 1, k, rest, _ => by
    rw [show jdumpArrTail k [] ++ rest = nlIndent k ++ (']' :: rest) by
      simp [jdumpArrTail]]
    rw [parseArrTail_step, skipWs_nlIndent, skipWs_cons_false (by decide)]
    rfl
  | v :: vs, fuel + 1, k, rest, h => by
    simp only [jsizeL] at h
    have hv1 : jsize v < fuel := by omega
    have hvs : jsizeL vs < fuel := by omega
    rw [show jdumpArrTail k (v :: vs) ++ rest =
      ',' :: (nlIndent (k + 1) ++ (jdumpVal (k + 1) v ++
        (jdumpArrTail k vs ++ rest))) by simp [jdumpArrTail]]
    rw [parseArrTail_step, skipWs_cons_false (by decide)]
    show (match parseVal fuel (nlIndent (k + 1) ++ (jdumpVal (k + 1) v ++
        (jdumpArrTail k vs ++ rest))) with
      | none => none
      | some (v2, r2) =>
        match parseArrTail fuel r2 with
        | none => none
        | some (vs2, r3) => some (v2 :: vs2, r3)) = some (v :: vs, rest)
    obtain ⟨f2, rfl⟩ : ∃ f2, fuel = f2 + 1 :=
      ⟨fuel - 1, by have := jsize_pos v; omega⟩
    rw [parseVal_wsPre f2 (nlIndent (k + 1)) (nlIndent_ws (k + 1)) _]
    rw [rt_val v (f2 + 1) (k + 1) (jdumpArrTail k vs ++ rest) hv1]
    show (match parseArrTail (f2 + 1) (jdumpArrTail k vs ++ rest) with
      | none => none
      | some (vs2, r3) => some (v :: vs2, r3)) = some (v :: vs, rest)
    rw [rt_arrTail vs (f2 + 1) k rest hvs]

theorem rt_objTail : ∀ (fs : List (Str × JVal)) (fuel k : Nat) (rest : Str),
    jsizeF fs < fuel →
    parseObjTail fuel (jdumpObjTail k fs ++ rest) = some (fs, rest)
  | fs, 0, _, _, h => ((Nat.not_lt_zero (jsizeF fs)) h).elim
  | [], fuel + 1, k, rest, _ => by
    rw [show jdumpObjTail k [] ++ rest = nlIndent k ++ (rbrace :: rest) by
      simp [jdumpObjTail]]
    rw [parseObjTail_step, skipWs_nlIndent, skipWs_cons_false (by decide)]
    rfl
  | (key, w) :: fs, fuel + 1, k, rest, h => by
    simp only [jsizeF] at h
    have hw1 : jsize w + 1 < fuel := by omega
    have hfs : jsizeF fs < fuel := by omega
    rw [show jdumpObjTail k ((key, w) :: fs) ++ rest =
      ',' :: (nlIndent (k + 1) ++ (jdumpKey key ++ (jdumpVal (k + 1) w ++
        (jdumpObjTail k fs ++ rest)))) by simp [jdumpObjTail]]
    rw [parseObjTail_step, skipWs_cons_false (by decide)]
    show (match parseField fuel (nlIndent (k + 1) ++ (jdumpKey key ++
        (jdumpVal (k + 1) w ++ (jdumpObjTail k fs ++ rest)))) with
      | none => none
      | some (kv, r2) =>
        match parseObjTail fuel r2 with
        | none => none
        | some (kvs, r3) => some (kv :: kvs, r3)) = some ((key, w) :: fs, rest)
    obtain ⟨f2, rfl⟩ : ∃ f2, fuel = f2 + 1 :=
      ⟨fuel - 1, by have := jsize_pos w; omega⟩
    rw [show jdumpKey key ++ (jdumpVal (k + 1) w ++ (jdumpObjTail k fs ++ rest))
      = (jdumpKey key ++ (jdumpVal (k + 1) w ++ (jdumpObjTail k fs ++ rest)) : Str)
      from rfl]
    rw [parseField_wsPre f2 (nlIndent (k + 1)) (nlIndent_ws (k + 1)) _]
    rw [rt_field key w (f2 + 1) (k + 1) (jdumpObjTail k fs ++ rest) hw1]
    show (match parseObjTail (f2 + 1) (jdumpObjTail k fs ++ rest) with
      | none => none
      | some (kvs, r3) => some ((key, w) :: kvs, r3)) =
      some ((key, w) :: fs, rest)
    rw [rt_objTail fs (f2 + 1) k rest hfs]

end

mutual

theorem jsize_le_len : ∀ (v : JVal) (k : Nat),
    jsize v ≤ (jdumpVal k v).length
  | .jnull, _ => by simp [jdumpVal, jsize]
  | .jstr s, _ => by simp [jdumpVal, jsize]
  | .jarr [], _ => by simp [jdumpVal, jsize, jsizeL]
  | .jarr (v :: vs), k => by
    have h1 := jsize_le_len v (k + 1)
    have h2 := jsizeL_le_len vs k
    simp only [jdumpVal, jsize, jsizeL, List.length_cons, List.length_append,
      nlIndent, List.length_replicate]
    omega
  | .jobj [], _ => by simp [jdumpVal, jsize, jsizeF]
  | .jobj (f :: fs), k => by
    have h1 := jsize_le_len f.2 (k + 1)
    have h2 := jsizeF_le_len fs k
    simp only [jdumpVal, jsize, jsizeF, jdumpKey, List.length_cons,
      List.length_append, nlIndent, List.length_replicate]
    omega

theorem jsizeL_le_len : ∀ (vs : List JVal) (k : Nat),
    jsizeL vs ≤ (jdumpArrTail k vs).length
  | [], _ => by simp [jdumpArrTail, jsizeL]
  | v :: vs, k => by
    have h1 := jsize_le_len v (k + 1)
    have h2 := jsizeL_le_len vs k
    simp only [jdumpArrTail, jsizeL, List.length_cons, List.length_append,
      nlIndent, List.length_replicate]
    omega

theorem jsizeF_le_len : ∀ (fs : List (Str × JVal)) (k : Nat),
    jsizeF fs ≤ (jdumpObjTail k fs).length
  | [], _ => by simp [jdumpObjTail, jsizeF]
  | f :: fs, k => by
    have h1 := jsize_le_len f.2 (k + 1)
    have h2 := jsizeF_le_len fs k
    simp only [jdumpObjTail, jsizeF, jdumpKey, List.length_cons,
      List.length_append, nlIndent, List.length_replicate]
    omega

end

/-- Claim C8 (confirmed): serializing any canonical document the way
`_write_json` does (`json.dumps(doc, ensure_ascii=False, indent=4)`, the
destination file fully overwritten) and re-parsing the written text yields
a structurally identical value: the same keys, in order, bound to the same
values, with every character — non-ASCII included — preserved. -/
theorem claim_C8 : ∀ d : JVal, jloads (jdumps d) = some d := by
  intro d
  have hsize := jsize_le_len d 0
  have h := rt_val d ((jdumpVal 0 d).length + 1) 0 [] (by omega)
  rw [List.append_nil] at h
  unfold jloads jdumps
  rw [h]
  rfl

end NewsScraper
